import Mathlib

/-!
Shallow embedding of the meal-plan generation and macro-balancing engine of
`befitlab_api_v2.py` (the Befit repository).  Python floats are modelled as
rationals (`Rat`); Python dicts keyed by id are modelled as association lists
(`List (key × value)`) with insertion-order semantics; Python dict references
shared between `meal_items` and each meal's `items` list are modelled by
indirection: each meal stores the list of item ids and the single authoritative
copy of every item lives in the `meal_items` association list.  A Python
`dict.get` with a default on a possibly-missing key is modelled with `Option`
fields and `Option.getD`.  Endpoint bodies of operations return `St × Res`
where `Res` records normal completion or the exception the Python code would
raise; mutations performed before an exception persist in the returned state,
as they do on the Python module-level globals.
-/

namespace Befit

attribute [local semireducible] Rat.add Rat.mul Rat.inv Rat.sub

/-- MacroVector: the four macro axes, from `macro_dict()` / the target dicts. -/
structure Macro where
  kcal : Rat
  protein : Rat
  carbs : Rat
  fat : Rat
deriving DecidableEq, Repr

/-- `macro_dict()` — the zero macro vector. -/
def macro_dict : Macro := { kcal := 0, protein := 0, carbs := 0, fat := 0 }

/-- `TRAIN_TARGET`. -/
def TRAIN_TARGET : Macro := { kcal := 2300, protein := 154, carbs := 278, fat := 64 }

/-- `REST_TARGET`. -/
def REST_TARGET : Macro := { kcal := 1900, protein := 151, carbs := 157, fat := 74 }

/-- `clamp(x, lo, hi) = max(lo, min(hi, x))`. -/
def clamp (x lo hi : Rat) : Rat := max lo (min hi x)

/-- `day_target(is_training)`. -/
def day_target (is_training : Bool) : Macro :=
  if is_training then TRAIN_TARGET else REST_TARGET

/-- `MEALS`: the seven fixed meal-slot keys, in order. -/
def MEALS : List String :=
  ["desayuno", "media_mañana", "almuerzo", "merienda", "cena",
   "postre_almuerzo", "postre_cena"]

/-- `MEAL_LABEL`: slot key → display label. -/
def MEAL_LABEL : List (String × String) :=
  [("desayuno", "Desayuno"), ("media_mañana", "Media mañana"),
   ("almuerzo", "Almuerzo"), ("merienda", "Merienda"), ("cena", "Cena"),
   ("postre_almuerzo", "Postre (almuerzo)"), ("postre_cena", "Postre (cena)")]

/-- `MEAL_WEIGHTS`: slot key → day-fraction weight. -/
def MEAL_WEIGHTS : List (String × Rat) :=
  [("desayuno", 22/100), ("media_mañana", 10/100), ("almuerzo", 28/100),
   ("merienda", 10/100), ("cena", 25/100),
   ("postre_almuerzo", 25/1000), ("postre_cena", 25/1000)]

/-- `meal_targets(day_t, meal_key)`: componentwise scaling by the slot weight,
default weight 0.15 (`MEAL_WEIGHTS.get(meal_key, 0.15)`). -/
def meal_targets (day_t : Macro) (meal_key : String) : Macro :=
  let w := (MEAL_WEIGHTS.lookup meal_key).getD (15/100)
  { kcal := day_t.kcal * w, protein := day_t.protein * w,
    carbs := day_t.carbs * w, fat := day_t.fat * w }

/-- A Python food dict.  The generator stores only `{"id", "name"}` on each
item, so every other key may be absent; `dict.get(k, default)` is `getD`. -/
structure FoodDict where
  id : String
  name : String
  kcal_100g : Option Rat
  proteina_100g : Option Rat
  hidratos_100g : Option Rat
  grasas_100g : Option Rat
  rol_principal : Option String
  permitido_comidas : Option String
deriving DecidableEq, Repr

/-- `food_macros_for_grams(food, grams)`: each `float(food.get(col, 0.0))`
scaled by `grams / 100`. -/
def food_macros_for_grams (food : FoodDict) (grams : Rat) : Macro :=
  let g := grams / 100
  { kcal := food.kcal_100g.getD 0 * g,
    protein := food.proteina_100g.getD 0 * g,
    carbs := food.hidratos_100g.getD 0 * g,
    fat := food.grasas_100g.getD 0 * g }

/-- `add_macros(a, b)`: pointwise addition over the four axes. -/
def add_macros (a b : Macro) : Macro :=
  { kcal := a.kcal + b.kcal, protein := a.protein + b.protein,
    carbs := a.carbs + b.carbs, fat := a.fat + b.fat }

/-- `compute_role(food) = str(food.get("rol_principal") or "hidrato")`:
a missing or empty role tag falls back to `"hidrato"`. -/
def compute_role (food : FoodDict) : String :=
  match food.rol_principal with
  | none => "hidrato"
  | some r => if r = "" then "hidrato" else r

/-- Does the character list `hay` start with `needle`? -/
def chars_start_with : List Char → List Char → Bool
  | [], _ => true
  | _ :: _, [] => false
  | n :: ns, h :: hs => n == h && chars_start_with ns hs

/-- Does `needle` occur contiguously inside `hay`? -/
def chars_infix (needle : List Char) : List Char → Bool
  | [] => chars_start_with needle []
  | h :: t => chars_start_with needle (h :: t) || chars_infix needle t

/-- Python `str.lower()` (over the character list, as the runtime does). -/
def py_lower (s : String) : String := ⟨s.data.map Char.toLower⟩

/-- Python `str.strip()`: drop leading and trailing whitespace. -/
def py_strip (s : String) : String :=
  ⟨((s.data.dropWhile Char.isWhitespace).reverse.dropWhile Char.isWhitespace).reverse⟩

/-- Split a character list at every occurrence of `sep` (Python
`str.split(sep)` for a one-character separator). -/
def split_chars (sep : Char) : List Char → List (List Char)
  | [] => [[]]
  | c :: cs =>
    match split_chars sep cs with
    | [] => [[c]]
    | g :: gs => if c == sep then [] :: g :: gs else (c :: g) :: gs

/-- Python `s.split(",")`. -/
def py_split_commas (s : String) : List String :=
  (split_chars ',' s.data).map (fun g => (⟨g⟩ : String))

/-- Python `s.replace(";", ",")` (one character for one character). -/
def py_replace_semi (s : String) : String :=
  ⟨s.data.map (fun c => if c == ';' then ',' else c)⟩

/-- Python `s.replace("_", "")`: delete every underscore. -/
def py_remove_underscores (s : String) : String :=
  ⟨s.data.filter (fun c => c != '_')⟩

/-- Python `needle in haystack` on strings: substring containment. -/
def str_contains (haystack needle : String) : Bool :=
  chars_infix needle.data haystack.data

/-- pandas `Series.str.contains(pat, case=False)` for the literal,
metacharacter-free patterns used here: case-insensitive containment. -/
def str_contains_ci (haystack pat : String) : Bool :=
  str_contains (py_lower haystack) (py_lower pat)

/-- `normalize_allowed(s)`: split on "," after turning ";" into ",",
strip + lowercase each part, drop empties; falsy input gives `[]`. -/
def normalize_allowed (s : String) : List String :=
  if s = "" then []
  else
    ((py_split_commas (py_replace_semi s)).map (fun p => py_lower (py_strip p))).filter
      (fun p => p ≠ "")

/-- A row of the foods DataFrame (`foods_df`, loaded from the CSV); the text
columns may hold `NaN`, modelled by `Option` (the callers apply `fillna`). -/
structure Row where
  id : String
  nombre : String
  rol_principal : Option String
  permitido_comidas : Option String
  kcal_100g : Rat
  proteina_100g : Rat
  hidratos_100g : Rat
  grasas_100g : Rat
deriving DecidableEq, Repr

/-- The primary filter of `pick_food`:
`df[df["rol_principal"].str.contains(role, case=False)]` followed by
`df[df["permitido_comidas"].str.contains(meal_key, case=False)]`
(after `fillna("")` on both columns). -/
def pick_primary_pass (r : Row) (meal_key role : String) : Bool :=
  str_contains_ci (r.rol_principal.getD "") role &&
    str_contains_ci (r.permitido_comidas.getD "") meal_key

/-- The pool `pick_food` samples from: the primary filter's rows, or — when
that is empty — the last-resort fallback filtered by role alone
(`foods_df[foods_df["rol_principal"].fillna("").str.contains(role, case=False)]`). -/
def pick_pool (catalog : List Row) (meal_key role : String) : List Row :=
  let primary := catalog.filter (fun r => pick_primary_pass r meal_key role)
  if primary.isEmpty then
    catalog.filter (fun r => str_contains_ci (r.rol_principal.getD "") role)
  else primary

/-- The dict returned by `pick_food` (the Python dict also repeats the macro
values under alias keys `kcal`, `protein_100g`, `carbs_100g`, `fat_100g`,
which nothing downstream reads). -/
def row_to_food (r : Row) : FoodDict :=
  { id := r.id, name := r.nombre,
    kcal_100g := some r.kcal_100g, proteina_100g := some r.proteina_100g,
    hidratos_100g := some r.hidratos_100g, grasas_100g := some r.grasas_100g,
    rol_principal := some (r.rol_principal.getD ""),
    permitido_comidas := some (r.permitido_comidas.getD "") }

/-- `pick_food(meal_key, role)`: `df.sample(frac=1)` then `df.iloc[0]` picks an
arbitrary element of the pool, modelled by the index `k` (taken mod the pool
size); an empty pool makes `df.iloc[0]` raise `IndexError`, modelled by
`none`. -/
def pick_food (catalog : List Row) (meal_key role : String) (k : Nat) :
    Option FoodDict :=
  let pool := pick_pool catalog meal_key role
  match pool with
  | [] => none
  | _ => (pool.get? (k % pool.length)).map row_to_food

/-- `candidate_pool_for(meal_key, role)`: iterates
`list(foods_custom.values()) + list(foods_master.values())`, keeps a food
unless its role tag misses `role` or its non-empty allowed-slot list excludes
`meal_key` (both by the source's membership tests). -/
def candidate_pool_for (foods_custom foods_master : List FoodDict)
    (meal_key role : String) : List FoodDict :=
  let role_l := py_lower role
  (foods_custom ++ foods_master).filter (fun f =>
    let r := py_lower (f.rol_principal.getD "")
    if role_l ≠ "" && !str_contains r role_l then false
    else
      let allowed := normalize_allowed (f.permitido_comidas.getD "")
      if allowed ≠ [] && !allowed.contains meal_key &&
          !str_contains (String.join allowed) (py_remove_underscores meal_key) then
        false
      else true)

/-- The per-100g value `base` selected by `grams_for_role`'s role branch. -/
def role_base (food : FoodDict) (role : String) : Rat :=
  let r := py_lower role
  if str_contains r "proteina" then food.proteina_100g.getD 0
  else if str_contains r "grasa" then food.grasas_100g.getD 0
  else food.hidratos_100g.getD 0

/-- The target component `goal` selected by `grams_for_role`'s role branch. -/
def role_goal (role : String) (target_macros : Macro) : Rat :=
  let r := py_lower role
  if str_contains r "proteina" then target_macros.protein
  else if str_contains r "grasa" then target_macros.fat
  else target_macros.carbs

/-- `grams_for_role(food, role, target_macros)`: size by the role-matched
macro when its per-100g value is positive, else by kcal, else 50 grams. -/
def grams_for_role (food : FoodDict) (role : String) (target_macros : Macro) :
    Rat :=
  let base := role_base food role
  let goal := role_goal role target_macros
  if base ≤ 0 then
    let kcal100 := food.kcal_100g.getD 0
    if kcal100 ≤ 0 then 50
    else clamp (target_macros.kcal / kcal100 * 100) 10 400
  else clamp (goal / base * 100) 10 400

/-- A `MealItem` dict.  The Python item's `"food"` value is the stripped dict
`{"id": ..., "name": ...}` built at creation, so its macro keys are absent. -/
structure Item where
  id : Nat
  meal_id : Nat
  food : FoodDict
  role : String
  planned_g : Rat
  adjusted_g : Rat
  consumed_g : Rat
  is_confirmed : Bool
  is_extra : Bool
  is_treat : Bool
  pantry_status : String
deriving DecidableEq, Repr

/-- A `Meal` dict.  `items` holds the ids of the item dicts; the dicts
themselves live (shared by reference in Python) in the `meal_items` map. -/
structure Meal where
  id : Nat
  day_date : String
  key : String
  name : String
  planned_macros : Macro
  adjusted_macros : Macro
  items : List Nat
deriving DecidableEq, Repr

/-- A day-state dict from `days`. -/
structure Day where
  day_date : String
  is_training : Bool
  planned : Macro
  adjusted : Macro
  consumed : Macro
deriving DecidableEq, Repr

/-- A `pantry` entry (`{"id", "food": {"id","name"}, "status", "qty", "unit"}`). -/
structure PantryEntry where
  id : Nat
  food_id : String
  food_name : String
  status : String
  qty : Rat
  unit : String
deriving DecidableEq, Repr

/-- A `shopping` entry (the `created_at` timestamp is not modelled). -/
structure ShopEntry where
  id : Nat
  food_id : String
  food_name : String
  qty : Rat
  unit : String
  status : String
deriving DecidableEq, Repr

/-- A `learning_events` record (the `ts` timestamp is not modelled). -/
structure Ev where
  type : String
  day_date : String
  ref_id : Nat
deriving DecidableEq, Repr

/-- The module-level in-memory "DB" of `befitlab_api_v2.py`.  `foods_master`
and `foods_custom` are kept as insertion-ordered lists of their dict values
(each value carries its own `"id"`, which is also its dict key). -/
structure St where
  foods_master : List FoodDict
  foods_custom : List FoodDict
  days : List (String × Day)
  meals_by_day : List (String × List Meal)
  meal_items : List (Nat × Item)
  pantry : List PantryEntry
  shopping : List ShopEntry
  learning_events : List Ev
  next_meal_id : Nat
  next_item_id : Nat
  next_shop_id : Nat
deriving DecidableEq, Repr

/-- Assignment `d[k] = f(d[k])` at every entry whose key is `k` (a Python dict
holds each key once; on association lists with duplicate keys only the first
entry is ever observed by `lookup`). -/
def upd_assoc {κ α : Type} [BEq κ] (k : κ) (f : α → α) (h : List (κ × α)) :
    List (κ × α) :=
  h.map (fun p => (p.1, if p.1 == k then f p.2 else p.2))

/-- Python dict assignment `d[k] = v`: overwrite when present, else append
(dicts preserve insertion order). -/
def dict_insert {κ α : Type} [BEq κ] (k : κ) (v : α) (h : List (κ × α)) :
    List (κ × α) :=
  if (h.lookup k).isSome then upd_assoc k (fun _ => v) h else h ++ [(k, v)]

/-- The outcome of an endpoint call: normal return, an `HTTPException`, or an
unhandled Python exception (`AttributeError` from `body.get` on a pydantic
model, `IndexError` from `df.iloc[0]` on an empty frame, `KeyError` from a
plain `dict[...]` miss). -/
inductive Res where
  | ok : Res
  | httpExc : Nat → String → Res
  | attrError : String → Res
  | indexError : Res
  | keyError : String → Res
deriving DecidableEq, Repr

/-- Sequencing with exception propagation: later statements run only when the
earlier ones completed normally; state mutated before a raise persists. -/
def andThen (r : St × Res) (f : St → St × Res) : St × Res :=
  match r with
  | (s, Res.ok) => f s
  | e => e

/-- `get_food(food_id)`: search `foods_master` then `foods_custom`; `none`
models the `HTTPException(404)` raise. -/
def get_food (s : St) (food_id : String) : Option FoodDict :=
  match s.foods_master.find? (fun f => f.id == food_id) with
  | some f => some f
  | none => s.foods_custom.find? (fun f => f.id == food_id)

/-- `pantry_status_for_food(food_id)`: status of the first pantry entry for
the food, else `"missing"`. -/
def pantry_status_for_food (s : St) (food_id : String) : String :=
  match s.pantry.find? (fun p => p.food_id == food_id) with
  | some p => p.status
  | none => "missing"

/-- `create_empty_meals(day_date)`: seven fresh meals, one per slot of
`MEALS` in order, with consecutive ids from `_next_meal_id`. -/
def create_empty_meals (day_date : String) (s : St) : St :=
  let meals : List Meal := MEALS.enum.map (fun p =>
    { id := s.next_meal_id + p.1, day_date := day_date, key := p.2,
      name := (MEAL_LABEL.lookup p.2).getD "",
      planned_macros := macro_dict, adjusted_macros := macro_dict,
      items := [] })
  { s with meals_by_day := dict_insert day_date meals s.meals_by_day,
           next_meal_id := s.next_meal_id + MEALS.length }

/-- `ensure_day(day_date)`: lazily create the day state and its seven meals
on first access. -/
def ensure_day (day_date : String) (s : St) : St :=
  let s1 :=
    if (s.days.lookup day_date).isSome then s
    else
      let d0 : Day :=
        { day_date := day_date, is_training := true, planned := macro_dict,
          adjusted := macro_dict, consumed := macro_dict }
      { s with days := dict_insert day_date d0 s.days }
  if (s1.meals_by_day.lookup day_date).isSome then s1
  else create_empty_meals day_date s1

/-- The item dicts a meal's `m["items"]` list holds, resolved through the
shared `meal_items` map. -/
def resolve_items (heap : List (Nat × Item)) (ids : List Nat) : List Item :=
  ids.filterMap (fun i => heap.lookup i)

/-- `sum_items_macros(items, key_grams)`: total the macros of each item's food
at the grams selected by `key_grams` (a field selector here, a key string in
Python). -/
def sum_items_macros (items : List Item) (key_grams : Item → Rat) : Macro :=
  items.foldl
    (fun total it => add_macros total (food_macros_for_grams it.food (key_grams it)))
    macro_dict

/-- The confirmed-only consumption total of one meal: the source copies each
confirmed item with `planned_g` replaced by `consumed_g` and then sums by
`planned_g`, which totals the confirmed items at their consumed grams. -/
def meal_consumed (heap : List (Nat × Item)) (m : Meal) : Macro :=
  sum_items_macros ((resolve_items heap m.items).filter (fun it => it.is_confirmed))
    (fun it => it.consumed_g)

/-- `recompute_day(day_date)`: re-derive each meal's `planned_macros` /
`adjusted_macros` and the day's `planned` / `adjusted` / `consumed` from the
current item lists.  A missing day would raise `KeyError` in Python; the
callers only invoke it on ensured days, modelled by the identity branch. -/
def recompute_day (day_date : String) (s : St) : St :=
  match s.days.lookup day_date, s.meals_by_day.lookup day_date with
  | some d, some meals =>
    let meals2 := meals.map (fun m =>
      { m with
        planned_macros :=
          sum_items_macros (resolve_items s.meal_items m.items) (fun it => it.planned_g),
        adjusted_macros :=
          sum_items_macros (resolve_items s.meal_items m.items) (fun it => it.adjusted_g) })
    let planned := meals.foldl (fun t m =>
      add_macros t (sum_items_macros (resolve_items s.meal_items m.items)
        (fun it => it.planned_g))) macro_dict
    let adjusted := meals.foldl (fun t m =>
      add_macros t (sum_items_macros (resolve_items s.meal_items m.items)
        (fun it => it.adjusted_g))) macro_dict
    let consumed := meals.foldl (fun t m =>
      add_macros t (meal_consumed s.meal_items m)) macro_dict
    { s with
      meals_by_day := dict_insert day_date meals2 s.meals_by_day,
      days := dict_insert day_date
        { d with planned := planned, adjusted := adjusted, consumed := consumed }
        s.days }
  | _, _ => s

/-- `ensure_shopping_for_item(food_id)`: no-op when the pantry has the food
available or a pending entry already exists; otherwise create a pending entry
(raising 404 when `get_food` cannot resolve the id). -/
def ensure_shopping_for_item (food_id : String) (s : St) : St × Res :=
  if pantry_status_for_food s food_id == "available" then (s, Res.ok)
  else if s.shopping.any (fun it => it.food_id == food_id && it.status == "pending") then
    (s, Res.ok)
  else
    match get_food s food_id with
    | none => (s, Res.httpExc 404 ("Food not found: " ++ food_id))
    | some f =>
      let e : ShopEntry :=
        { id := s.next_shop_id, food_id := f.id, food_name := f.name,
          qty := 1, unit := "unit", status := "pending" }
      ({ s with shopping := s.shopping ++ [e],
                next_shop_id := s.next_shop_id + 1 }, Res.ok)

/-- The `for m in meals: for it in m["items"]: ensure_shopping_for_item(...)`
loop; an exception aborts the remaining iterations. -/
def ensure_shopping_all (food_ids : List String) (s : St) : St × Res :=
  food_ids.foldl (fun acc fid => andThen acc (ensure_shopping_for_item fid)) (s, Res.ok)

/-- One assignment of the rebalance loop: a treat keeps `planned_g`, any
other item gets `clamp(planned_g * scale, 0, 9999)`. -/
def set_adj (scale : Rat) (it : Item) : Item :=
  if it.is_treat then { it with adjusted_g := it.planned_g }
  else { it with adjusted_g := clamp (it.planned_g * scale) 0 9999 }

/-- One iteration of the kcal-accumulation loop of
`recalc_adjusted_keep_targets`: add the item's planned-grams kcal to the
treat or the non-treat bucket. -/
def tk_step (acc : Rat × Rat) (it : Item) : Rat × Rat :=
  let kcal := (food_macros_for_grams it.food it.planned_g).kcal
  if it.is_treat then (acc.1 + kcal, acc.2) else (acc.1, acc.2 + kcal)

/-- The `(treat_kcal, non_treat_kcal)` accumulation of
`recalc_adjusted_keep_targets`, over the planned grams of the day's items. -/
def treat_kcals (items : List Item) : Rat × Rat :=
  items.foldl tk_step (0, 0)

/-- All item dicts of a day's meals (resolved through `meal_items`). -/
def day_items (s : St) (day_date : String) : List Item :=
  match s.meals_by_day.lookup day_date with
  | some meals => meals.flatMap (fun m => resolve_items s.meal_items m.items)
  | none => []

/-- All item ids of a day's meals. -/
def day_item_ids (s : St) (day_date : String) : List Nat :=
  ((s.meals_by_day.lookup day_date).getD []).flatMap (fun m => m.items)

/-- The scale factor of `recalc_adjusted_keep_targets`:
`remaining / non_treat_kcal` when `non_treat_kcal > 1e-6`, else `1.0`. -/
def scale_of (day_date : String) (s : St) : Rat :=
  match s.days.lookup day_date with
  | none => 1
  | some d =>
    let tk_ntk := treat_kcals (day_items s day_date)
    let remaining := max 0 ((day_target d.is_training).kcal - tk_ntk.1)
    if tk_ntk.2 > 1/1000000 then remaining / tk_ntk.2 else 1

/-- The `meal_items` map after the rebalance loop wrote `adjusted_g` into
every item dict of the day's meals (shared by reference with the map). -/
def recalc_heap (day_date : String) (s : St) : List (Nat × Item) :=
  s.meal_items.map (fun p =>
    (p.1, if (day_item_ids s day_date).contains p.1 then
            set_adj (scale_of day_date s) p.2
          else p.2))

/-- `recalc_adjusted_keep_targets(day_date)`: rescale every non-treat item's
`adjusted_g` toward the day's kcal target holding treats fixed, then re-derive
shopping entries for every item's food and recompute the day's aggregates.
A missing day would raise `KeyError`; callers only invoke it on ensured
days. -/
def recalc_adjusted_keep_targets (day_date : String) (s : St) : St × Res :=
  match s.days.lookup day_date, s.meals_by_day.lookup day_date with
  | some _, some meals =>
    let s2 : St := { s with meal_items := recalc_heap day_date s }
    let fids := (meals.flatMap (fun m => resolve_items s2.meal_items m.items)).map
      (fun it => it.food.id)
    andThen (ensure_shopping_all fids s2) (fun s3 => (recompute_day day_date s3, Res.ok))
  | _, _ => (s, Res.keyError day_date)

/-- The stripped food dict `{"id": f["id"], "name": f["name"]}` stored on
every generated, swapped or extra item. -/
def food_ref (f : FoodDict) : FoodDict :=
  { id := f.id, name := f.name, kcal_100g := none, proteina_100g := none,
    hidratos_100g := none, grasas_100g := none, rol_principal := none,
    permitido_comidas := none }

/-- The role set of a slot: desserts get `["hidrato", "grasa"]`, the rest
`["proteina", "hidrato", "grasa"]`. -/
def roles_for (meal_key : String) : List String :=
  if chars_start_with "postre".data meal_key.data then ["hidrato", "grasa"]
  else ["proteina", "hidrato", "grasa"]

/-- The meal lookup loop shared by `regenerate_meal`, `swap_item`,
`add_extra` and `confirm_item`: scan `meals_by_day` in insertion order for
the first meal with the given id, together with its day key. -/
def find_meal (s : St) (meal_id : Nat) : Option (String × Meal) :=
  s.meals_by_day.findSome? (fun p =>
    (p.2.find? (fun m => m.id == meal_id)).map (fun m => (p.1, m)))

/-- In-place mutation of the item dict `meal_items[k]` (visible through every
meal list holding it, by reference). -/
def upd_item (k : Nat) (f : Item → Item) (s : St) : St :=
  { s with meal_items := upd_assoc k f s.meal_items }

/-- Append an audit record to `learning_events`. -/
def add_event (e : Ev) (s : St) : St :=
  { s with learning_events := s.learning_events ++ [e] }

/-- `for m in meals_by_day[dd]: m["items"] = []`. -/
def clear_day_items (day_date : String) (s : St) : St :=
  let mbd := upd_assoc day_date
    (fun meals => meals.map (fun m => { m with items := [] })) s.meals_by_day
  { s with meals_by_day := mbd }

/-- `target_meal["items"] = []` for one meal of one day. -/
def clear_meal_items (day_date : String) (meal_id : Nat) (s : St) : St :=
  let mbd := upd_assoc day_date
    (fun meals => meals.map (fun m =>
      if m.id == meal_id then { m with items := [] } else m)) s.meals_by_day
  { s with meals_by_day := mbd }

/-- `m["items"].append(item)` for one meal of one day (the item id; the dict
itself lives in `meal_items`). -/
def meal_append_item (day_date : String) (meal_id : Nat) (item_id : Nat) (s : St) : St :=
  let mbd := upd_assoc day_date
    (fun meals => meals.map (fun m =>
      if m.id == meal_id then { m with items := m.items ++ [item_id] } else m))
    s.meals_by_day
  { s with meals_by_day := mbd }

/-- One iteration of `generate_day`'s inner loop: pick a food for the role,
size it, append the fresh non-extra non-treat unconfirmed item, and ensure a
shopping entry for its food. -/
def gen_task (catalog : List Row) (day_date : String) (t : Macro)
    (task : Nat × String × String) (k : Nat) (s : St) : St × Res :=
  let mt := meal_targets t task.2.1
  match pick_food catalog task.2.1 task.2.2 k with
  | none => (s, Res.indexError)
  | some f =>
    let grams := grams_for_role f task.2.2 mt
    let it : Item :=
      { id := s.next_item_id, meal_id := task.1, food := food_ref f,
        role := task.2.2, planned_g := grams, adjusted_g := grams,
        consumed_g := 0, is_confirmed := false, is_extra := false,
        is_treat := false, pantry_status := pantry_status_for_food s f.id }
    let s2 : St :=
      { s with meal_items := dict_insert it.id it s.meal_items,
               next_item_id := s.next_item_id + 1 }
    ensure_shopping_for_item f.id (meal_append_item day_date task.1 it.id s2)

/-- One iteration of `regenerate_meal`'s loop; it differs from `gen_task` in
storing `compute_role(f)` as the item's role and in using the meal's fixed
macro sub-target. -/
def regen_task (catalog : List Row) (day_date : String) (meal_id : Nat)
    (meal_key : String) (mt : Macro) (role : String) (k : Nat) (s : St) : St × Res :=
  match pick_food catalog meal_key role k with
  | none => (s, Res.indexError)
  | some f =>
    let grams := grams_for_role f role mt
    let it : Item :=
      { id := s.next_item_id, meal_id := meal_id, food := food_ref f,
        role := compute_role f, planned_g := grams, adjusted_g := grams,
        consumed_g := 0, is_confirmed := false, is_extra := false,
        is_treat := false, pantry_status := pantry_status_for_food s f.id }
    let s2 : St :=
      { s with meal_items := dict_insert it.id it s.meal_items,
               next_item_id := s.next_item_id + 1 }
    ensure_shopping_for_item f.id (meal_append_item day_date meal_id it.id s2)

/-- Run the generation tasks in order; the random draw of task `i` is `ks i`;
an exception aborts the remaining tasks. -/
def run_tasks {α : Type} (tf : α → Nat → St → St × Res) :
    List α → (Nat → Nat) → Nat → St → St × Res
  | [], _, _, s => (s, Res.ok)
  | task :: rest, ks, i, s =>
    match tf task (ks i) s with
    | (s2, Res.ok) => run_tasks tf rest ks (i + 1) s2
    | e => e

/-- The argument `reject_day` passes to `generate_day`: over HTTP the body
parses to a plain dict, but `reject_day` hands over a `GenerateDayBody`
pydantic model, which has no `.get` method. -/
inductive PyBody where
  | asDict : List (String × String) → PyBody
  | asModel : String → PyBody
deriving DecidableEq, Repr

/-- `generate_day(body)`: clear all items of the day's seven meals, re-select
and re-size three items per main slot and two per dessert slot, then
rebalance.  `body.get("day_date")` on a pydantic model raises
`AttributeError`. -/
def generate_day (catalog : List Row) (body : PyBody) (ks : Nat → Nat) (s : St) :
    St × Res :=
  match body with
  | PyBody.asModel _ =>
    (s, Res.attrError "GenerateDayBody object has no attribute get")
  | PyBody.asDict kvs =>
    match kvs.lookup "day_date" with
    | none => (s, Res.httpExc 400 "day_date missing")
    | some dd =>
      if dd = "" then (s, Res.httpExc 400 "day_date missing")
      else
        let s := ensure_day dd s
        match s.days.lookup dd, s.meals_by_day.lookup dd with
        | some day, some meals =>
          let t := day_target day.is_training
          let s := clear_day_items dd s
          let tasks := meals.flatMap (fun m =>
            (roles_for m.key).map (fun role => (m.id, m.key, role)))
          andThen (run_tasks (gen_task catalog dd t) tasks ks 0 s)
            (fun s2 => recalc_adjusted_keep_targets dd s2)
        | _, _ => (s, Res.keyError dd)

/-- `accept_day(day_date)`: audit event only. -/
def accept_day (day_date : String) (s : St) : St × Res :=
  let s := ensure_day day_date s
  (add_event { type := "accept_day", day_date := day_date, ref_id := 0 } s, Res.ok)

/-- `reject_day(day_date)`: audit event, then
`generate_day(GenerateDayBody(day_date=dd))` — the pydantic model argument. -/
def reject_day (catalog : List Row) (day_date : String) (ks : Nat → Nat) (s : St) :
    St × Res :=
  let s := ensure_day day_date s
  let s := add_event { type := "reject_day", day_date := day_date, ref_id := 0 } s
  andThen (generate_day catalog (PyBody.asModel day_date) ks s) (fun s2 => (s2, Res.ok))

/-- `regenerate_meal(meal_id)`: replace the located meal's entire item list
with freshly selected and sized items, rebalance, audit. -/
def regenerate_meal (catalog : List Row) (meal_id : Nat) (ks : Nat → Nat) (s : St) :
    St × Res :=
  match find_meal s meal_id with
  | none => (s, Res.httpExc 404 "Meal no encontrado")
  | some (dd, m) =>
    let s := ensure_day dd s
    match s.days.lookup dd with
    | none => (s, Res.keyError dd)
    | some d =>
      let t := day_target d.is_training
      let mt := meal_targets t m.key
      let s := clear_meal_items dd meal_id s
      andThen (run_tasks (regen_task catalog dd meal_id m.key mt) (roles_for m.key) ks 0 s)
        (fun s2 => andThen (recalc_adjusted_keep_targets dd s2) (fun s3 =>
          (add_event { type := "regenerate_meal", day_date := "", ref_id := meal_id } s3,
           Res.ok)))

/-- The mutation phase of `swap_item`, up to and including the shopping
derivation — everything before the subsequent `recalc_adjusted_keep_targets`
(the Rebalance) runs. -/
def swap_item_core (catalog : List Row) (meal_item_id : Nat) (role : String)
    (k : Nat) (s : St) : St × Res :=
  match s.meal_items.lookup meal_item_id with
  | none => (s, Res.httpExc 404 "Item no encontrado")
  | some it =>
    match find_meal s it.meal_id with
    | none => (s, Res.httpExc 404 "Meal no encontrado")
    | some (_, m) =>
      match pick_food catalog m.key role k with
      | none => (s, Res.indexError)
      | some f =>
        let old_planned := it.planned_g
        let s2 := upd_item meal_item_id (fun j =>
          { j with food := food_ref f, role := compute_role f,
                   planned_g := old_planned, adjusted_g := old_planned,
                   pantry_status := pantry_status_for_food s f.id }) s
        ensure_shopping_for_item f.id s2

/-- `swap_item(meal_item_id, role)`: re-select the food keeping the grams,
then rebalance and audit. -/
def swap_item (catalog : List Row) (meal_item_id : Nat) (role : String)
    (k : Nat) (s : St) : St × Res :=
  match s.meal_items.lookup meal_item_id with
  | none => (s, Res.httpExc 404 "Item no encontrado")
  | some it =>
    match find_meal s it.meal_id with
    | none => (s, Res.httpExc 404 "Meal no encontrado")
    | some (dd, _) =>
      andThen (swap_item_core catalog meal_item_id role k s) (fun s2 =>
        andThen (recalc_adjusted_keep_targets dd s2) (fun s3 =>
          (add_event { type := "swap_item", day_date := "", ref_id := meal_item_id } s3,
           Res.ok)))

/-- `add_extra(meal_id, food_id, grams, as_treat)`: append an extra item; a
treat is immediately confirmed at its own grams. -/
def add_extra (meal_id : Nat) (food_id : String) (grams : Rat) (as_treat : Bool)
    (s : St) : St × Res :=
  match find_meal s meal_id with
  | none => (s, Res.httpExc 404 "Meal no encontrado")
  | some (dd, _) =>
    match get_food s food_id with
    | none => (s, Res.httpExc 404 ("Food not found: " ++ food_id))
    | some f =>
      let it : Item :=
        { id := s.next_item_id, meal_id := meal_id, food := food_ref f,
          role := compute_role f, planned_g := grams, adjusted_g := grams,
          consumed_g := if as_treat then grams else 0,
          is_confirmed := as_treat, is_extra := true, is_treat := as_treat,
          pantry_status := pantry_status_for_food s f.id }
      let s2 : St :=
        { s with meal_items := dict_insert it.id it s.meal_items,
                 next_item_id := s.next_item_id + 1 }
      let s3 := meal_append_item dd meal_id it.id s2
      andThen (ensure_shopping_for_item f.id s3) (fun s4 =>
        andThen (recalc_adjusted_keep_targets dd s4) (fun s5 =>
          (add_event { type := "add_extra", day_date := "", ref_id := it.id } s5,
           Res.ok)))

/-- `confirm_item(meal_item_id, body)`: set `consumed_g` / `is_confirmed` on
the item dict (also when no meal list holds it any more), then locate the
day through the item's `meal_id` and recompute its aggregates. -/
def confirm_item (meal_item_id : Nat) (consumed_g : Rat) (is_confirmed : Bool)
    (s : St) : St × Res :=
  match s.meal_items.lookup meal_item_id with
  | none => (s, Res.httpExc 404 "Item no encontrado")
  | some it =>
    let s := upd_item meal_item_id (fun j =>
      { j with consumed_g := consumed_g, is_confirmed := is_confirmed }) s
    match find_meal s it.meal_id with
    | none => (s, Res.httpExc 404 "Dia no encontrado")
    | some (dd, _) =>
      let s := recompute_day dd s
      (add_event { type := "confirm_item", day_date := "", ref_id := it.id } s, Res.ok)

/-- `set_training(day_date, body)`: flip the day's profile and rebalance. -/
def set_training (day_date : String) (is_training : Bool) (s : St) : St × Res :=
  let s := ensure_day day_date s
  let ds := upd_assoc day_date (fun d => { d with is_training := is_training }) s.days
  let s : St := { s with days := ds }
  andThen (recalc_adjusted_keep_targets day_date s) (fun s2 => (s2, Res.ok))

/-- The state effect of `get_day(day_date)` (the response is read-only). -/
def get_day (day_date : String) (s : St) : St × Res :=
  (ensure_day day_date s, Res.ok)

/-- The state effect of `get_day_meals(day_date)`. -/
def get_day_meals (day_date : String) (s : St) : St × Res :=
  (ensure_day day_date s, Res.ok)

/-- One public operation of the Generator Orchestrator / Ledger interface. -/
inductive Op where
  | opGenerateDay : PyBody → (Nat → Nat) → Op
  | opAcceptDay : String → Op
  | opRejectDay : String → (Nat → Nat) → Op
  | opRegenerateMeal : Nat → (Nat → Nat) → Op
  | opSwapItem : Nat → String → Nat → Op
  | opAddExtra : Nat → String → Rat → Bool → Op
  | opConfirmItem : Nat → Rat → Bool → Op
  | opSetTraining : String → Bool → Op
  | opGetDay : String → Op
  | opGetMeals : String → Op

/-- Dispatch one operation against the shared state. -/
def step (catalog : List Row) (op : Op) (s : St) : St × Res :=
  match op with
  | Op.opGenerateDay body ks => generate_day catalog body ks s
  | Op.opAcceptDay dd => accept_day dd s
  | Op.opRejectDay dd ks => reject_day catalog dd ks s
  | Op.opRegenerateMeal mid ks => regenerate_meal catalog mid ks s
  | Op.opSwapItem iid role k => swap_item catalog iid role k s
  | Op.opAddExtra mid fid grams as_treat => add_extra mid fid grams as_treat s
  | Op.opConfirmItem iid g c => confirm_item iid g c s
  | Op.opSetTraining dd b => set_training dd b s
  | Op.opGetDay dd => get_day dd s
  | Op.opGetMeals dd => get_day_meals dd s

/-- Run a sequence of operations; the server keeps serving after a failed
request, so each step continues from the state the previous one left. -/
def run_ops (catalog : List Row) (ops : List Op) (s : St) : St :=
  ops.foldl (fun s op => (step catalog op s).1) s

/-! Concrete fixtures used by the witnesses and counterexamples below: a
small three-row catalog (one food per role, every slot allowed) with the
corresponding master dicts and an all-available pantry. -/

/-- Every slot key, as a `permitido_comidas` CSV cell. -/
def all_slots : String :=
  "desayuno,media_mañana,almuerzo,merienda,cena,postre_almuerzo,postre_cena"

/-- Catalog row: a protein food. -/
def rowP : Row :=
  { id := "p1", nombre := "Pollo", rol_principal := some "proteina",
    permitido_comidas := some all_slots, kcal_100g := 120, proteina_100g := 22,
    hidratos_100g := 0, grasas_100g := 3 }

/-- Catalog row: a carb food. -/
def rowH : Row :=
  { id := "h1", nombre := "Arroz", rol_principal := some "hidrato",
    permitido_comidas := some all_slots, kcal_100g := 350, proteina_100g := 7,
    hidratos_100g := 77, grasas_100g := 1 }

/-- Catalog row: a fat food. -/
def rowG : Row :=
  { id := "g1", nombre := "Aceite", rol_principal := some "grasa",
    permitido_comidas := some all_slots, kcal_100g := 900, proteina_100g := 0,
    hidratos_100g := 0, grasas_100g := 100 }

/-- The three-row catalog. -/
def catalog0 : List Row := [rowP, rowH, rowG]

/-- A pantry entry marking a food available. -/
def avail (pid : Nat) (fid fname : String) : PantryEntry :=
  { id := pid, food_id := fid, food_name := fname, status := "available",
    qty := 1, unit := "unit" }

/-- Fresh process state: empty ledger, the catalog's foods all available in
the pantry (so the shopping deriver takes its early no-op branch). -/
def st0 : St :=
  { foods_master := [row_to_food rowP, row_to_food rowH, row_to_food rowG],
    foods_custom := [],
    days := [], meals_by_day := [], meal_items := [],
    pantry := [avail 1 "p1" "Pollo", avail 2 "h1" "Arroz", avail 3 "g1" "Aceite"],
    shopping := [], learning_events := [],
    next_meal_id := 1, next_item_id := 1, next_shop_id := 1 }

/-! ### Association-list lemmas -/

theorem lookup_map_keyed {κ α : Type} [BEq κ] [LawfulBEq κ] (f : κ → α → α)
    (h : List (κ × α)) (i : κ) :
    (h.map (fun p => (p.1, f p.1 p.2))).lookup i = (h.lookup i).map (f i) := by
  induction h with
  | nil => rfl
  | cons p t ih =>
    by_cases hik : i = p.1
    · subst hik
      simp [List.lookup]
    · have hbeq : (i == p.1) = false := beq_false_of_ne hik
      simp [List.lookup, hbeq, ih]

theorem lookup_upd_assoc {κ α : Type} [BEq κ] [LawfulBEq κ] (k : κ) (f : α → α)
    (h : List (κ × α)) (i : κ) :
    (upd_assoc k f h).lookup i =
      (h.lookup i).map (fun v => if i == k then f v else v) := by
  simpa [upd_assoc] using
    lookup_map_keyed (fun j v => if j == k then f v else v) h i

theorem lookup_upd_assoc_self {κ α : Type} [BEq κ] [LawfulBEq κ] (k : κ)
    (f : α → α) (h : List (κ × α)) :
    (upd_assoc k f h).lookup k = (h.lookup k).map f := by
  simp [lookup_upd_assoc]

theorem lookup_upd_assoc_ne {κ α : Type} [BEq κ] [LawfulBEq κ] (k : κ)
    (f : α → α) (h : List (κ × α)) (i : κ) (hik : i ≠ k) :
    (upd_assoc k f h).lookup i = h.lookup i := by
  have hbeq : (i == k) = false := beq_false_of_ne hik
  simp [lookup_upd_assoc, hbeq]

theorem lookup_append {κ α : Type} [BEq κ] (h t : List (κ × α)) (i : κ) :
    (h ++ t).lookup i =
      (match h.lookup i with
       | some v => some v
       | none => t.lookup i) := by
  induction h with
  | nil => simp [List.lookup]
  | cons p h ih =>
    by_cases hbeq : (i == p.1) = true
    · simp [List.lookup, hbeq]
    · simp at hbeq
      have hbeq' : (i == p.1) = false := by
        simpa using hbeq
      simp [List.lookup, hbeq', ih]

theorem lookup_dict_insert_self {κ α : Type} [BEq κ] [LawfulBEq κ] (k : κ)
    (v : α) (h : List (κ × α)) : (dict_insert k v h).lookup k = some v := by
  unfold dict_insert
  by_cases hs : (h.lookup k).isSome
  · rcases Option.isSome_iff_exists.mp hs with ⟨w, hw⟩
    simp [hs, lookup_upd_assoc_self, hw]
  · simp only [hs, if_false, Bool.false_eq_true]
    rw [lookup_append]
    have : h.lookup k = none := Option.not_isSome_iff_eq_none.mp hs
    simp [this, List.lookup]

theorem lookup_dict_insert_ne {κ α : Type} [BEq κ] [LawfulBEq κ] (k : κ)
    (v : α) (h : List (κ × α)) (i : κ) (hik : i ≠ k) :
    (dict_insert k v h).lookup i = h.lookup i := by
  unfold dict_insert
  by_cases hs : (h.lookup k).isSome
  · simp [hs, lookup_upd_assoc_ne k _ h i hik]
  · have hbeq : (i == k) = false := beq_false_of_ne hik
    simp only [hs, if_false, Bool.false_eq_true]
    rw [lookup_append]
    cases hl : h.lookup i <;> simp [List.lookup, hbeq]

/-! ### C6: the Portion Sizer -/

theorem le_clamp {x lo hi : Rat} : lo ≤ clamp x lo hi :=
  le_max_left lo (min hi x)

theorem clamp_le {x lo hi : Rat} (h : lo ≤ hi) : clamp x lo hi ≤ hi :=
  max_le h (min_le_left hi x)

/-- `grams_for_role` written out through its two `if` tests (the `let`s of
the definition are transparent). -/
theorem grams_for_role_eq (food : FoodDict) (role : String) (t : Macro) :
    grams_for_role food role t =
      if role_base food role ≤ 0 then
        if food.kcal_100g.getD 0 ≤ 0 then 50
        else clamp (t.kcal / food.kcal_100g.getD 0 * 100) 10 400
      else clamp (role_goal role t / role_base food role * 100) 10 400 := rfl

/-- C6.  For every food and meal macro target, `grams_for_role` returns a
value in `[10, 400]` and follows the documented three-tier strategy: size by
the role-matched macro when its per-100g value is positive, otherwise by the
kcal target, otherwise return the fixed 50-gram fallback — so every division
it performs has a positive divisor. -/
theorem portion_sizer_range_and_fallbacks (food : FoodDict) (role : String)
    (t : Macro) :
    10 ≤ grams_for_role food role t ∧ grams_for_role food role t ≤ 400 ∧
    (0 < role_base food role →
      grams_for_role food role t =
        clamp (role_goal role t / role_base food role * 100) 10 400) ∧
    (role_base food role ≤ 0 → 0 < food.kcal_100g.getD 0 →
      grams_for_role food role t =
        clamp (t.kcal / food.kcal_100g.getD 0 * 100) 10 400) ∧
    (role_base food role ≤ 0 → food.kcal_100g.getD 0 ≤ 0 →
      grams_for_role food role t = 50) := by
  rw [grams_for_role_eq]
  by_cases hb : role_base food role ≤ 0
  · by_cases hk : food.kcal_100g.getD 0 ≤ 0
    · rw [if_pos hb, if_pos hk]
      refine ⟨by norm_num, by norm_num, ?_, ?_, fun _ _ => rfl⟩
      · intro hpos; exact absurd hb (not_le.mpr hpos)
      · intro _ hpos; exact absurd hk (not_le.mpr hpos)
    · rw [if_pos hb, if_neg hk]
      refine ⟨le_clamp, clamp_le (by norm_num), ?_, fun _ _ => rfl, ?_⟩
      · intro hpos; exact absurd hb (not_le.mpr hpos)
      · intro _ hneg; exact absurd hneg hk
  · rw [if_neg hb]
    refine ⟨le_clamp, clamp_le (by norm_num), fun _ => rfl, ?_, ?_⟩
    · intro hle; exact absurd hle hb
    · intro hle; exact absurd hle hb

/-- Witness for C6: a stored item food (macros absent, so every per-100g
value reads 0) takes the 50-gram fallback, and a real protein food sizes by
protein. -/
theorem portion_sizer_range_and_fallbacks_witness :
    grams_for_role (food_ref (row_to_food rowP)) "proteina" TRAIN_TARGET = 50 ∧
    grams_for_role (row_to_food rowP) "proteina"
        (meal_targets TRAIN_TARGET "desayuno") =
      clamp (role_goal "proteina" (meal_targets TRAIN_TARGET "desayuno") /
        role_base (row_to_food rowP) "proteina" * 100) 10 400 :=
  ⟨(portion_sizer_range_and_fallbacks (food_ref (row_to_food rowP)) "proteina"
      TRAIN_TARGET).2.2.2.2 (by decide) (by decide),
   (portion_sizer_range_and_fallbacks (row_to_food rowP) "proteina"
      (meal_targets TRAIN_TARGET "desayuno")).2.2.1 (by decide)⟩

/-! ### C10: lazy day creation -/

/-- C10.  The first access to a date (every public operation funnels through
`ensure_day`) creates the day with `is_training = true` and zero planned /
adjusted / consumed vectors, paired with the seven fixed slots in the fixed
order, each labelled from `MEAL_LABEL`, with empty item lists and zero meal
macros; when the day and its meals already exist, `ensure_day` returns the
state unchanged (so a second access is a no-op). -/
theorem ensure_day_first_access_and_idempotent (dd : String) (s : St) :
    (s.days.lookup dd = none → s.meals_by_day.lookup dd = none →
      (ensure_day dd s).days.lookup dd =
        some { day_date := dd, is_training := true, planned := macro_dict,
               adjusted := macro_dict, consumed := macro_dict } ∧
      ((ensure_day dd s).meals_by_day.lookup dd).map (fun ms => ms.map (fun m =>
          (m.key, m.name, m.items, m.planned_macros, m.adjusted_macros))) =
        some (MEALS.map (fun k =>
          (k, (MEAL_LABEL.lookup k).getD "", ([] : List Nat), macro_dict, macro_dict)))) ∧
    ((s.days.lookup dd).isSome → (s.meals_by_day.lookup dd).isSome →
      ensure_day dd s = s) := by
  constructor
  · intro hd hm
    simp only [ensure_day, create_empty_meals, hd, hm, Option.isSome_none,
      Bool.false_eq_true, if_false, lookup_dict_insert_self]
    constructor <;> trivial
  · intro hd hm
    unfold ensure_day
    rw [if_pos hd, if_pos hm]

/-- Witness for C10: a fresh date on the fixture state, plus idempotence of a
second access. -/
theorem ensure_day_first_access_and_idempotent_witness :
    ((ensure_day "2026-01-01" st0).days.lookup "2026-01-01" =
        some { day_date := "2026-01-01", is_training := true,
               planned := macro_dict, adjusted := macro_dict,
               consumed := macro_dict } ∧
      ((ensure_day "2026-01-01" st0).meals_by_day.lookup "2026-01-01").map
          (fun ms => ms.map (fun m =>
            (m.key, m.name, m.items, m.planned_macros, m.adjusted_macros))) =
        some (MEALS.map (fun k =>
          (k, (MEAL_LABEL.lookup k).getD "", ([] : List Nat), macro_dict, macro_dict)))) ∧
    ensure_day "2026-01-01" (ensure_day "2026-01-01" st0) =
      ensure_day "2026-01-01" st0 :=
  ⟨(ensure_day_first_access_and_idempotent "2026-01-01" st0).1 rfl rfl,
   (ensure_day_first_access_and_idempotent "2026-01-01"
      (ensure_day "2026-01-01" st0)).2 (by decide) (by decide)⟩

/-! ### C8: confirmed-only consumption -/

theorem add_macros_zero_right (t : Macro) : add_macros t macro_dict = t := by
  cases t
  simp [add_macros, macro_dict]

theorem foldl_add_meal_consumed_zero (heap : List (Nat × Item)) :
    ∀ (meals : List Meal) (t : Macro),
      (∀ m ∈ meals, meal_consumed heap m = macro_dict) →
      meals.foldl (fun t m => add_macros t (meal_consumed heap m)) t = t := by
  intro meals
  induction meals with
  | nil => intro t _; rfl
  | cons m ms ih =>
    intro t h
    simp only [List.foldl_cons]
    rw [h m (by simp), add_macros_zero_right]
    exact ih t (fun m2 hm2 => h m2 (by simp [hm2]))

theorem meal_consumed_eq_zero (heap : List (Nat × Item)) (m : Meal)
    (h : ∀ it ∈ resolve_items heap m.items, it.is_confirmed = false) :
    meal_consumed heap m = macro_dict := by
  unfold meal_consumed
  have hf : (resolve_items heap m.items).filter (fun it => it.is_confirmed) = [] := by
    apply List.filter_eq_nil_iff.mpr
    intro a ha
    simp [h a ha]
  rw [hf]
  rfl

/-- C8.  The day's `consumed` vector is rebuilt by `recompute_day` from the
confirmed items only (at their consumed grams), so when no resolvable item of
the day's meals is confirmed, the recomputed `consumed` is the zero vector. -/
theorem consumed_zero_when_none_confirmed (dd : String) (s : St) (d : Day)
    (meals : List Meal) (hd : s.days.lookup dd = some d)
    (hm : s.meals_by_day.lookup dd = some meals)
    (hnone : ∀ it ∈ day_items s dd, it.is_confirmed = false) :
    ((recompute_day dd s).days.lookup dd).map (fun d2 => d2.consumed) =
      some macro_dict := by
  unfold recompute_day
  rw [hd, hm]
  simp only [lookup_dict_insert_self, Option.map_some]
  have hz : ∀ m ∈ meals, meal_consumed s.meal_items m = macro_dict := by
    intro m hmm
    apply meal_consumed_eq_zero
    intro it hit
    apply hnone
    unfold day_items
    rw [hm]
    exact List.mem_flatMap.mpr ⟨m, hmm, hit⟩
  rw [foldl_add_meal_consumed_zero s.meal_items meals macro_dict hz]
  rfl

/-- An unconfirmed item for the C8 witness state. -/
def itC8 : Item :=
  { id := 1, meal_id := 10, food := food_ref (row_to_food rowP),
    role := "proteina", planned_g := 120, adjusted_g := 110, consumed_g := 90,
    is_confirmed := false, is_extra := false, is_treat := false,
    pantry_status := "available" }

/-- A one-meal day state for the C8 witness. -/
def sC8 : St :=
  { st0 with
    days := [("2026-02-01",
      { day_date := "2026-02-01", is_training := true, planned := macro_dict,
        adjusted := macro_dict, consumed := TRAIN_TARGET })],
    meals_by_day := [("2026-02-01",
      [{ id := 10, day_date := "2026-02-01", key := "cena", name := "Cena",
         planned_macros := macro_dict, adjusted_macros := macro_dict,
         items := [1] }])],
    meal_items := [(1, itC8)] }

/-- Witness for C8: recomputing a day holding one unconfirmed item zeroes the
stale `consumed` vector. -/
theorem consumed_zero_when_none_confirmed_witness :
    ((recompute_day "2026-02-01" sC8).days.lookup "2026-02-01").map
        (fun d2 => d2.consumed) = some macro_dict :=
  consumed_zero_when_none_confirmed "2026-02-01" sC8
    { day_date := "2026-02-01", is_training := true, planned := macro_dict,
      adjusted := macro_dict, consumed := TRAIN_TARGET }
    [{ id := 10, day_date := "2026-02-01", key := "cena", name := "Cena",
       planned_macros := macro_dict, adjusted_macros := macro_dict,
       items := [1] }]
    (by decide) (by decide) (by decide)

/-! ### C7: empty allowed-slot set in the Candidate Selector -/

/-- A protein row whose `permitido_comidas` cell is empty (unrestricted per
the data dictionary). -/
def rowUnrestricted : Row := { rowP with id := "u1", permitido_comidas := some "" }

/-- Counterexample for C7: this food matches the role and its allowed-slot
set is empty, yet the primary filter of `pick_food` — the selector the
generators call — rejects it for slot `"cena"` (an empty pandas cell never
`str.contains` the slot key), so it can still be chosen only through the
role-only fallback. -/
theorem empty_slot_set_fails_pick_primary :
    str_contains_ci (rowUnrestricted.rol_principal.getD "") "proteina" = true ∧
    normalize_allowed (rowUnrestricted.permitido_comidas.getD "") = [] ∧
    pick_primary_pass rowUnrestricted "cena" "proteina" = false := by
  decide

/-- C7 as amended.  The empty-set-means-unrestricted rule holds in the helper
`candidate_pool_for` (a role-matching food with an empty normalized
allowed-slot list always passes), but not in `pick_food`'s primary filter:
there a food with an empty `permitido_comidas` cell fails the slot condition
for every non-empty slot key and survives only via the role-only fallback. -/
theorem empty_slot_set_unrestricted_amended :
    (∀ (foods_custom foods_master : List FoodDict) (f : FoodDict)
        (meal_key role : String),
      f ∈ foods_custom ++ foods_master →
      str_contains (py_lower (f.rol_principal.getD "")) (py_lower role) = true →
      normalize_allowed (f.permitido_comidas.getD "") = [] →
      f ∈ candidate_pool_for foods_custom foods_master meal_key role) ∧
    (∀ (r : Row) (meal_key role : String),
      r.permitido_comidas.getD "" = "" → meal_key ≠ "" →
      pick_primary_pass r meal_key role = false) := by
  constructor
  · intro fc fm f mk role hmem hrole hallowed
    unfold candidate_pool_for
    apply List.mem_filter.mpr
    refine ⟨hmem, ?_⟩
    simp [hrole, hallowed]
  · intro r mk role hempty hmk
    unfold pick_primary_pass
    have hdata : ∃ c cs, (py_lower mk).data = c :: cs := by
      cases hmkd : mk.data with
      | nil =>
        exfalso
        apply hmk
        have : mk = ⟨[]⟩ := by
          cases mk
          simp_all
        simp [this]
      | cons c cs => exact ⟨Char.toLower c, cs.map Char.toLower, by simp [py_lower, hmkd]⟩
    rcases hdata with ⟨c, cs, hcc⟩
    have : str_contains_ci (r.permitido_comidas.getD "") mk = false := by
      unfold str_contains_ci str_contains
      rw [hempty, hcc]
      rfl
    simp [this]

/-- Witness for C7's amended statement: the unrestricted protein food passes
`candidate_pool_for` for `"cena"` while the same data fails `pick_food`'s
primary filter. -/
theorem empty_slot_set_unrestricted_amended_witness :
    row_to_food rowUnrestricted ∈
      candidate_pool_for [row_to_food rowUnrestricted] [] "cena" "proteina" ∧
    pick_primary_pass rowUnrestricted "cena" "proteina" = false :=
  ⟨empty_slot_set_unrestricted_amended.1 [row_to_food rowUnrestricted] []
      (row_to_food rowUnrestricted) "cena" "proteina" (by decide) (by decide)
      (by decide),
   empty_slot_set_unrestricted_amended.2 rowUnrestricted "cena" "proteina"
      (by decide) (by decide)⟩

/-! ### C2: provenance of the selection pool -/

/-- A user-defined (runtime-created) food that matches the protein role and
the `"cena"` slot. -/
def customFood : FoodDict :=
  { id := "custom:1", name := "Batido casero", kcal_100g := some 380,
    proteina_100g := some 80, hidratos_100g := some 8, grasas_100g := some 5,
    rol_principal := some "proteina", permitido_comidas := some "cena" }

/-- Counterexample for C2: with this user-defined food registered (it matches
the role and slot filters, as its `candidate_pool_for` membership shows), the
pool `pick_food` actually samples from for `("cena", "proteina")` is built
from the catalog DataFrame alone — it is exactly the catalog row `p1`, and
the user-defined food's id is not in it. -/
theorem user_food_absent_from_selection_pool :
    customFood ∈ candidate_pool_for [customFood] st0.foods_master "cena" "proteina" ∧
    (pick_pool catalog0 "cena" "proteina").map (fun r => r.id) = ["p1"] ∧
    ¬ ("custom:1" ∈ (pick_pool catalog0 "cena" "proteina").map (fun r => r.id)) := by
  decide

/-- C2 as amended.  Every food `pick_food` can return — during GenerateDay,
RegenerateMeal and SwapItem, which all select through it — is a row of the
CSV-loaded catalog DataFrame; user-defined foods (`foods_custom`) never enter
that pool (only the unused helper `candidate_pool_for` would include them). -/
theorem pick_food_only_from_catalog (catalog : List Row) (meal_key role : String)
    (k : Nat) (f : FoodDict) (h : pick_food catalog meal_key role k = some f) :
    ∃ r, r ∈ catalog ∧ f = row_to_food r := by
  have hsub : ∀ r, r ∈ pick_pool catalog meal_key role → r ∈ catalog := by
    intro r hr
    unfold pick_pool at hr
    by_cases hp : (catalog.filter (fun r => pick_primary_pass r meal_key role)).isEmpty
    · rw [if_pos hp] at hr
      exact (List.mem_filter.mp hr).1
    · rw [if_neg hp] at hr
      exact (List.mem_filter.mp hr).1
  unfold pick_food at h
  cases hpool : pick_pool catalog meal_key role with
  | nil => rw [hpool] at h; exact absurd h (by simp)
  | cons r0 rs =>
    rw [hpool] at h
    rw [Option.map_eq_some'] at h
    rcases h with ⟨r, hget, hf⟩
    refine ⟨r, hsub r ?_, hf.symm⟩
    rw [hpool]
    exact List.get?_mem hget

/-- Witness for C2's amended statement: on the fixture catalog, draw 0 for
`("cena", "proteina")` returns the protein catalog row. -/
theorem pick_food_only_from_catalog_witness :
    ∃ r, r ∈ catalog0 ∧ row_to_food rowP = row_to_food r :=
  pick_food_only_from_catalog catalog0 "cena" "proteina" 0 (row_to_food rowP)
    (by decide)

/-! ### Frame lemmas: the shopping deriver and the audit log never touch the
ledger core (days, meals, items, pantry) -/

/-- The state components the ledger claims reason about. -/
def core_frame (s : St) :
    List (String × Day) × List (String × List Meal) × List (Nat × Item) ×
      List PantryEntry :=
  (s.days, s.meals_by_day, s.meal_items, s.pantry)

theorem ensure_shopping_core_frame (fid : String) (s : St) :
    core_frame (ensure_shopping_for_item fid s).1 = core_frame s := by
  unfold ensure_shopping_for_item
  repeat' split
  all_goals rfl

theorem andThen_core_frame (r : St × Res) (f : St → St × Res)
    (hf : ∀ s, core_frame (f s).1 = core_frame s) :
    core_frame (andThen r f).1 = core_frame r.1 := by
  rcases r with ⟨s, res⟩
  cases res
  case ok => exact hf s
  all_goals rfl

theorem ensure_shopping_all_core_frame_aux (fids : List String) :
    ∀ acc : St × Res,
      core_frame ((fids.foldl
        (fun acc fid => andThen acc (ensure_shopping_for_item fid)) acc)).1 =
        core_frame acc.1 := by
  induction fids with
  | nil => intro acc; rfl
  | cons fid rest ih =>
    intro acc
    simp only [List.foldl_cons]
    rw [ih]
    exact andThen_core_frame acc _ (fun s => ensure_shopping_core_frame fid s)

theorem ensure_shopping_all_core_frame (fids : List String) (s : St) :
    core_frame (ensure_shopping_all fids s).1 = core_frame s :=
  ensure_shopping_all_core_frame_aux fids (s, Res.ok)

theorem days_of_frame {s t : St} (h : core_frame s = core_frame t) :
    s.days = t.days := congrArg (fun p => p.1) h

theorem meals_of_frame {s t : St} (h : core_frame s = core_frame t) :
    s.meals_by_day = t.meals_by_day := congrArg (fun p => p.2.1) h

theorem heap_of_frame {s t : St} (h : core_frame s = core_frame t) :
    s.meal_items = t.meal_items := congrArg (fun p => p.2.2.1) h

theorem pantry_of_frame {s t : St} (h : core_frame s = core_frame t) :
    s.pantry = t.pantry := congrArg (fun p => p.2.2.2) h

/-! ### C3: SwapItem keeps grams (but overwrites `adjusted_g` with the old
`planned_g`) -/

/-- The C3 counterexample item: rebalance has left `adjusted_g = 100` while
`planned_g = 120`. -/
def itC3 : Item :=
  { id := 1, meal_id := 10, food := food_ref (row_to_food rowH),
    role := "proteina", planned_g := 120, adjusted_g := 100, consumed_g := 0,
    is_confirmed := false, is_extra := false, is_treat := false,
    pantry_status := "available" }

/-- The C3 counterexample state: one day, one meal, one item. -/
def sC3 : St :=
  { st0 with
    days := [("2026-01-02",
      { day_date := "2026-01-02", is_training := true, planned := macro_dict,
        adjusted := macro_dict, consumed := macro_dict })],
    meals_by_day := [("2026-01-02",
      [{ id := 10, day_date := "2026-01-02", key := "cena", name := "Cena",
         planned_macros := macro_dict, adjusted_macros := macro_dict,
         items := [1] }])],
    meal_items := [(1, itC3)] }

/-- Counterexample for C3: before the swap the item has `adjusted_g = 100`
and `planned_g = 120`; immediately after the swap mutation (before the
subsequent Rebalance) `adjusted_g` is 120 — the old `planned_g`, not the old
`adjusted_g`, so `adjusted_g` does not keep its pre-swap value. -/
theorem swap_overwrites_adjusted_with_planned :
    (sC3.meal_items.lookup 1).map (fun j => j.adjusted_g) = some 100 ∧
    ((swap_item_core catalog0 1 "proteina" 0 sC3).1.meal_items.lookup 1).map
      (fun j => j.adjusted_g) = some 120 ∧
    (swap_item_core catalog0 1 "proteina" 0 sC3).2 = Res.ok := by
  decide

/-- C3 as amended.  Immediately after the swap mutation and before the
subsequent Rebalance, the item keeps its pre-swap `planned_g`, while
`adjusted_g` is overwritten with that same pre-swap `planned_g` (not with the
pre-swap `adjusted_g`); only the food reference, the role (re-derived from
the new food) and the pantry snapshot change besides, and no re-sizing by the
Portion Sizer occurs. -/
theorem swap_core_keeps_planned_overwrites_adjusted (catalog : List Row)
    (iid : Nat) (role : String) (k : Nat) (s : St) (it : Item)
    (p : String × Meal) (f : FoodDict)
    (hit : s.meal_items.lookup iid = some it)
    (hm : find_meal s it.meal_id = some p)
    (hf : pick_food catalog p.2.key role k = some f) :
    (swap_item_core catalog iid role k s).1.meal_items.lookup iid =
      some { it with food := food_ref f, role := compute_role f,
                     planned_g := it.planned_g, adjusted_g := it.planned_g,
                     pantry_status := pantry_status_for_food s f.id } := by
  unfold swap_item_core
  rw [hit]
  rcases p with ⟨dd, m⟩
  dsimp only
  rw [hm]
  dsimp only
  rw [hf]
  dsimp only
  have hframe := heap_of_frame (ensure_shopping_core_frame f.id
    (upd_item iid (fun j =>
      { j with food := food_ref f, role := compute_role f,
               planned_g := it.planned_g, adjusted_g := it.planned_g,
               pantry_status := pantry_status_for_food s f.id }) s))
  rw [hframe]
  unfold upd_item
  dsimp only
  rw [lookup_upd_assoc_self, hit]
  rfl

/-- Witness for C3's amended statement, at the counterexample state. -/
theorem swap_core_keeps_planned_overwrites_adjusted_witness :
    (swap_item_core catalog0 1 "proteina" 0 sC3).1.meal_items.lookup 1 =
      some { itC3 with food := food_ref (row_to_food rowP),
                       role := compute_role (row_to_food rowP),
                       planned_g := itC3.planned_g,
                       adjusted_g := itC3.planned_g,
                       pantry_status := pantry_status_for_food sC3 "p1" } :=
  swap_core_keeps_planned_overwrites_adjusted catalog0 1 "proteina" 0 sC3 itC3
    ("2026-01-02",
      { id := 10, day_date := "2026-01-02", key := "cena", name := "Cena",
        planned_macros := macro_dict, adjusted_macros := macro_dict,
        items := [1] })
    (row_to_food rowP) (by decide) (by decide) (by decide)

/-! ### C1: RejectDay and the pydantic-model argument -/

/-- A day generated through the public dict-bodied `generate_day` endpoint on
the fixture state. -/
def sGen : St :=
  (generate_day catalog0 (PyBody.asDict [("day_date", "2026-01-01")])
    (fun _ => 0) st0).1

/-- C1.  `generate_day` called the intended way (dict body) succeeds and
fills the seven meals with 19 items; but `reject_day` hands `generate_day` a
`GenerateDayBody` pydantic model, whose missing `.get` raises
`AttributeError` before any regeneration work, so after `reject_day` the
day's items, meals and item counter are exactly what they were — the audit
event is recorded and no fresh items are generated, contradicting the claim
that the meals then hold a freshly generated full set. -/
theorem reject_day_crashes_without_regenerating :
    (generate_day catalog0 (PyBody.asDict [("day_date", "2026-01-01")])
        (fun _ => 0) st0).2 = Res.ok ∧
    sGen.meal_items.length = 19 ∧
    (reject_day catalog0 "2026-01-01" (fun _ => 0) sGen).2 =
      Res.attrError "GenerateDayBody object has no attribute get" ∧
    (reject_day catalog0 "2026-01-01" (fun _ => 0) sGen).1.meal_items =
      sGen.meal_items ∧
    (reject_day catalog0 "2026-01-01" (fun _ => 0) sGen).1.meals_by_day =
      sGen.meals_by_day ∧
    (reject_day catalog0 "2026-01-01" (fun _ => 0) sGen).1.next_item_id =
      sGen.next_item_id ∧
    (reject_day catalog0 "2026-01-01" (fun _ => 0) sGen).1.learning_events =
      sGen.learning_events ++
        [{ type := "reject_day", day_date := "2026-01-01", ref_id := 0 }] := by
  set_option maxRecDepth 100000 in
  decide

/-! ### C5: Rebalance idempotence -/

theorem recompute_day_meal_items (dd : String) (s : St) :
    (recompute_day dd s).meal_items = s.meal_items := by
  unfold recompute_day
  repeat' split
  all_goals rfl

theorem recompute_day_days_is_training (dd : String) (s : St) (j : String) :
    ((recompute_day dd s).days.lookup j).map (fun d => d.is_training) =
      (s.days.lookup j).map (fun d => d.is_training) := by
  unfold recompute_day
  cases hd : s.days.lookup dd with
  | none => rfl
  | some d =>
    cases hm : s.meals_by_day.lookup dd with
    | none => rfl
    | some meals =>
      dsimp only
      by_cases hj : j = dd
      · subst hj
        rw [lookup_dict_insert_self, hd]
        rfl
      · rw [lookup_dict_insert_ne _ _ _ _ hj]

theorem andThen_err (s : St) (res : Res) (f : St → St × Res) (h : res ≠ Res.ok) :
    andThen (s, res) f = (s, res) := by
  cases res
  · exact absurd rfl h
  all_goals rfl

theorem recompute_day_meals_items (dd : String) (s : St) (j : String) :
    ((recompute_day dd s).meals_by_day.lookup j).map
        (fun ms => ms.map (fun m => m.items)) =
      (s.meals_by_day.lookup j).map (fun ms => ms.map (fun m => m.items)) := by
  unfold recompute_day
  cases hd : s.days.lookup dd with
  | none => rfl
  | some d =>
    cases hm : s.meals_by_day.lookup dd with
    | none => rfl
    | some meals =>
      dsimp only
      by_cases hj : j = dd
      · subst hj
        rw [lookup_dict_insert_self, hm]
        simp
      · rw [lookup_dict_insert_ne _ _ _ _ hj]

theorem recalc_heap_lookup (dd : String) (s : St) (i : Nat) :
    (recalc_heap dd s).lookup i = (s.meal_items.lookup i).map (fun it =>
      if (day_item_ids s dd).contains i then set_adj (scale_of dd s) it
      else it) :=
  lookup_map_keyed
    (fun j v => if (day_item_ids s dd).contains j then set_adj (scale_of dd s) v else v)
    s.meal_items i

/-- What one `recalc_adjusted_keep_targets` call does to the components the
next call reads: the item map becomes `recalc_heap` (when the day exists),
while `is_training` of every day and the item-id lists of every meal are
untouched. -/
theorem recalc_components (dd : String) (s : St) :
    (recalc_adjusted_keep_targets dd s).1.meal_items =
      (match s.days.lookup dd, s.meals_by_day.lookup dd with
       | some _, some _ => recalc_heap dd s
       | _, _ => s.meal_items) ∧
    (∀ j, ((recalc_adjusted_keep_targets dd s).1.days.lookup j).map
        (fun d => d.is_training) =
      (s.days.lookup j).map (fun d => d.is_training)) ∧
    (∀ j, ((recalc_adjusted_keep_targets dd s).1.meals_by_day.lookup j).map
        (fun ms => ms.map (fun m => m.items)) =
      (s.meals_by_day.lookup j).map (fun ms => ms.map (fun m => m.items))) := by
  unfold recalc_adjusted_keep_targets
  cases hd : s.days.lookup dd with
  | none => exact ⟨rfl, fun j => rfl, fun j => rfl⟩
  | some d =>
    cases hm : s.meals_by_day.lookup dd with
    | none => exact ⟨rfl, fun j => rfl, fun j => rfl⟩
    | some meals =>
      dsimp only
      rcases hr : ensure_shopping_all
          ((meals.flatMap (fun m =>
            resolve_items ({ s with meal_items := recalc_heap dd s } : St).meal_items
              m.items)).map (fun it => it.food.id))
          ({ s with meal_items := recalc_heap dd s } : St) with ⟨s3, res⟩
      have hcf := ensure_shopping_all_core_frame
        ((meals.flatMap (fun m =>
          resolve_items ({ s with meal_items := recalc_heap dd s } : St).meal_items
            m.items)).map (fun it => it.food.id))
        ({ s with meal_items := recalc_heap dd s } : St)
      rw [hr] at hcf
      have h3heap : s3.meal_items = recalc_heap dd s :=
        congrArg (fun p => p.2.2.1) hcf
      have h3days : s3.days = s.days := congrArg (fun p => p.1) hcf
      have h3meals : s3.meals_by_day = s.meals_by_day :=
        congrArg (fun p => p.2.1) hcf
      rw [hr]
      cases res with
      | ok =>
        refine ⟨?_, ?_, ?_⟩
        · show (recompute_day dd s3).meal_items = recalc_heap dd s
          rw [recompute_day_meal_items, h3heap]
        · intro j
          show ((recompute_day dd s3).days.lookup j).map _ = _
          rw [recompute_day_days_is_training, h3days]
        · intro j
          show ((recompute_day dd s3).meals_by_day.lookup j).map _ = _
          rw [recompute_day_meals_items, h3meals]
      | httpExc n msg =>
        rw [andThen_err _ _ _ (fun hc => Res.noConfusion hc)]
        exact ⟨h3heap, fun j => by rw [h3days], fun j => by rw [h3meals]⟩
      | attrError msg =>
        rw [andThen_err _ _ _ (fun hc => Res.noConfusion hc)]
        exact ⟨h3heap, fun j => by rw [h3days], fun j => by rw [h3meals]⟩
      | indexError =>
        rw [andThen_err _ _ _ (fun hc => Res.noConfusion hc)]
        exact ⟨h3heap, fun j => by rw [h3days], fun j => by rw [h3meals]⟩
      | keyError msg =>
        rw [andThen_err _ _ _ (fun hc => Res.noConfusion hc)]
        exact ⟨h3heap, fun j => by rw [h3days], fun j => by rw [h3meals]⟩

/-- The item fields the Rebalancer's scale computation reads: `planned_g`,
`is_treat` and the stored food dict.  Rebalancing rewrites only
`adjusted_g`, so the signature is invariant under it. -/
def item_sig (it : Item) : Rat × Bool × FoodDict :=
  (it.planned_g, it.is_treat, it.food)

theorem item_sig_set_adj (c : Rat) (it : Item) :
    item_sig (set_adj c it) = item_sig it := by
  unfold set_adj
  split <;> rfl

theorem set_adj_idem (c : Rat) (it : Item) :
    set_adj c (set_adj c it) = set_adj c it := by
  unfold set_adj
  by_cases h : it.is_treat <;> simp [h]

theorem tk_step_congr (acc : Rat × Rat) {a b : Item}
    (h : item_sig a = item_sig b) : tk_step acc a = tk_step acc b := by
  have hp : a.planned_g = b.planned_g := congrArg (fun p => p.1) h
  have ht : a.is_treat = b.is_treat := congrArg (fun p => p.2.1) h
  have hf : a.food = b.food := congrArg (fun p => p.2.2) h
  simp only [tk_step, hp, ht, hf]

theorem foldl_tk_congr :
    ∀ (l1 l2 : List Item), l1.map item_sig = l2.map item_sig →
      ∀ acc : Rat × Rat, l1.foldl tk_step acc = l2.foldl tk_step acc := by
  intro l1
  induction l1 with
  | nil =>
    intro l2 h acc
    cases l2 with
    | nil => rfl
    | cons b t => simp at h
  | cons a t ih =>
    intro l2 h acc
    cases l2 with
    | nil => simp at h
    | cons b t2 =>
      simp only [List.map_cons, List.cons.injEq] at h
      simp only [List.foldl_cons]
      rw [tk_step_congr acc h.1]
      exact ih t2 h.2 _

theorem treat_kcals_congr {l1 l2 : List Item}
    (h : l1.map item_sig = l2.map item_sig) : treat_kcals l1 = treat_kcals l2 :=
  foldl_tk_congr l1 l2 h (0, 0)

theorem resolve_items_map_sig_congr (h1 h2 : List (Nat × Item))
    (hs : ∀ i, (h1.lookup i).map item_sig = (h2.lookup i).map item_sig) :
    ∀ ids : List Nat,
      (resolve_items h1 ids).map item_sig = (resolve_items h2 ids).map item_sig := by
  intro ids
  induction ids with
  | nil => rfl
  | cons i rest ih =>
    have hi := hs i
    unfold resolve_items
    simp only [List.filterMap_cons]
    cases ha : h1.lookup i with
    | none =>
      rw [ha] at hi
      cases hb : h2.lookup i with
      | none => exact ih
      | some b => rw [hb] at hi; exact absurd hi (by simp)
    | some a =>
      rw [ha] at hi
      cases hb : h2.lookup i with
      | none => rw [hb] at hi; exact absurd hi (by simp)
      | some b =>
        rw [hb] at hi
        simp only [Option.map_some', Option.some.injEq] at hi
        show (a :: resolve_items h1 rest).map item_sig =
          (b :: resolve_items h2 rest).map item_sig
        simp only [List.map_cons]
        rw [hi, ih]

theorem flatMap_resolve_by_items (h : List (Nat × Item)) (ms : List Meal) :
    ms.flatMap (fun m => resolve_items h m.items) =
      (ms.map (fun m => m.items)).flatMap (fun ids => resolve_items h ids) := by
  induction ms with
  | nil => rfl
  | cons m rest ih => simp only [List.flatMap_cons, List.map_cons, ih]

theorem flatMap_resolve_map_sig (h1 h2 : List (Nat × Item))
    (hs : ∀ i, (h1.lookup i).map item_sig = (h2.lookup i).map item_sig) :
    ∀ idss : List (List Nat),
      (idss.flatMap (fun ids => resolve_items h1 ids)).map item_sig =
        (idss.flatMap (fun ids => resolve_items h2 ids)).map item_sig := by
  intro idss
  induction idss with
  | nil => rfl
  | cons ids rest ih =>
    simp only [List.flatMap_cons, List.map_append]
    rw [resolve_items_map_sig_congr h1 h2 hs ids, ih]

theorem flatMap_items_eq {ms1 ms2 : List Meal}
    (h : ms1.map (fun m => m.items) = ms2.map (fun m => m.items)) :
    ms1.flatMap (fun m => m.items) = ms2.flatMap (fun m => m.items) := by
  induction ms1 generalizing ms2 with
  | nil =>
    cases ms2 with
    | nil => rfl
    | cons b t => simp at h
  | cons a t ih =>
    cases ms2 with
    | nil => simp at h
    | cons b t2 =>
      simp only [List.map_cons, List.cons.injEq] at h
      simp only [List.flatMap_cons]
      rw [h.1, ih h.2]

theorem scale_of_congr (dd : String) (s1 s : St)
    (hdays : (s1.days.lookup dd).map (fun d => d.is_training) =
      (s.days.lookup dd).map (fun d => d.is_training))
    (hsig : (day_items s1 dd).map item_sig = (day_items s dd).map item_sig) :
    scale_of dd s1 = scale_of dd s := by
  unfold scale_of
  cases h1 : s1.days.lookup dd with
  | none =>
    rw [h1] at hdays
    cases h2 : s.days.lookup dd with
    | none => rfl
    | some d => rw [h2] at hdays; exact absurd hdays (by simp)
  | some d1 =>
    rw [h1] at hdays
    cases h2 : s.days.lookup dd with
    | none => rw [h2] at hdays; exact absurd hdays (by simp)
    | some d =>
      rw [h2] at hdays
      simp only [Option.map_some', Option.some.injEq] at hdays
      dsimp only
      rw [treat_kcals_congr hsig, hdays]

/-- C5.  The Rebalancer is idempotent: for every state and every item id,
running `recalc_adjusted_keep_targets` twice in succession (no intervening
item change) leaves every item's `adjusted_g` exactly as the first run left
it.  The scale factor is computed from `planned_g`, `is_treat` and the stored
food dicts — none of which rebalancing alters — so the second pass rewrites
the same values. -/
theorem rebalance_idempotent (dd : String) (s : St) (i : Nat) :
    ((recalc_adjusted_keep_targets dd
        (recalc_adjusted_keep_targets dd s).1).1.meal_items.lookup i).map
      (fun it => it.adjusted_g) =
    ((recalc_adjusted_keep_targets dd s).1.meal_items.lookup i).map
      (fun it => it.adjusted_g) := by
  obtain ⟨hA1, hA2, hA3⟩ := recalc_components dd s
  obtain ⟨hB1, hB2, hB3⟩ := recalc_components dd (recalc_adjusted_keep_targets dd s).1
  set s1 := (recalc_adjusted_keep_targets dd s).1 with hs1def
  cases hd : s.days.lookup dd with
  | none =>
    have hd1 : s1.days.lookup dd = none := by
      have h := hA2 dd
      rw [hd] at h
      exact Option.map_eq_none'.mp h
    rw [hd] at hA1
    rw [hd1] at hB1
    simp only at hA1 hB1
    rw [hB1]
  | some d =>
    cases hm : s.meals_by_day.lookup dd with
    | none =>
      have hm1 : s1.meals_by_day.lookup dd = none := by
        have h := hA3 dd
        rw [hm] at h
        exact Option.map_eq_none'.mp h
      obtain ⟨d1, hxd⟩ : ∃ d1, s1.days.lookup dd = some d1 := by
        have h := hA2 dd
        rw [hd] at h
        cases hx : s1.days.lookup dd with
        | none => rw [hx] at h; exact absurd h (by simp)
        | some d1 => exact ⟨d1, rfl⟩
      rw [hd, hm] at hA1
      rw [hxd, hm1] at hB1
      simp only at hA1 hB1
      rw [hB1]
    | some meals =>
      rw [hd, hm] at hA1
      simp only at hA1
      obtain ⟨d1, hxd, hxt⟩ : ∃ d1, s1.days.lookup dd = some d1 ∧
          d1.is_training = d.is_training := by
        have h := hA2 dd
        rw [hd] at h
        cases hx : s1.days.lookup dd with
        | none => rw [hx] at h; exact absurd h (by simp)
        | some d1 =>
          rw [hx] at h
          simp only [Option.map_some', Option.some.injEq] at h
          exact ⟨d1, rfl, h⟩
      obtain ⟨ms1, hxm, hxi⟩ : ∃ ms1, s1.meals_by_day.lookup dd = some ms1 ∧
          ms1.map (fun m => m.items) = meals.map (fun m => m.items) := by
        have h := hA3 dd
        rw [hm] at h
        cases hx : s1.meals_by_day.lookup dd with
        | none => rw [hx] at h; exact absurd h (by simp)
        | some ms1 =>
          rw [hx] at h
          simp only [Option.map_some', Option.some.injEq] at h
          exact ⟨ms1, rfl, h⟩
      rw [hxd, hxm] at hB1
      simp only at hB1
      rw [hB1]
      have hsig_lookup : ∀ ii, (s1.meal_items.lookup ii).map item_sig =
          (s.meal_items.lookup ii).map item_sig := by
        intro ii
        rw [hA1, recalc_heap_lookup]
        cases hv : s.meal_items.lookup ii with
        | none => rfl
        | some v =>
          simp only [Option.map_some']
          by_cases hc : (day_item_ids s dd).contains ii
          · rw [if_pos hc, item_sig_set_adj]
          · rw [if_neg hc]
      have hids : day_item_ids s1 dd = day_item_ids s dd := by
        unfold day_item_ids
        rw [hxm, hm]
        exact flatMap_items_eq hxi
      have hdi : (day_items s1 dd).map item_sig =
          (day_items s dd).map item_sig := by
        unfold day_items
        rw [hxm, hm]
        dsimp only
        rw [flatMap_resolve_by_items, flatMap_resolve_by_items, hxi]
        exact flatMap_resolve_map_sig s1.meal_items s.meal_items hsig_lookup
          (meals.map (fun m => m.items))
      have hscale : scale_of dd s1 = scale_of dd s := by
        apply scale_of_congr
        · rw [hxd, hd]
          simp [hxt]
        · exact hdi
      rw [recalc_heap_lookup, hids, hscale, hA1, recalc_heap_lookup]
      cases hv : s.meal_items.lookup i with
      | none => rfl
      | some v =>
        simp only [Option.map_some']
        by_cases hc : (day_item_ids s dd).contains i
        · rw [if_pos hc, if_pos hc, set_adj_idem]
        · rw [if_neg hc, if_neg hc]

/-! ### C4: treat invariance across the whole Orchestrator -/

/-- The per-item treat invariant: a treat's `adjusted_g` equals its
`planned_g`. -/
def entry_ok (it : Item) : Bool := !it.is_treat || (it.adjusted_g == it.planned_g)

/-- The day-wide treat invariant over every item dict in the system. -/
def treat_inv (s : St) : Bool := s.meal_items.all (fun p => entry_ok p.2)

/-- Preservation of the treat invariant by a state transformer. -/
def PresTI (f : St → St × Res) : Prop :=
  ∀ s, treat_inv s = true → treat_inv (f s).1 = true

theorem treat_inv_of_heap_eq {s t : St} (h : s.meal_items = t.meal_items) :
    treat_inv s = treat_inv t := by
  unfold treat_inv
  rw [h]

theorem heap_all_upd_assoc (k : Nat) (f : Item → Item) (h : List (Nat × Item))
    (hf : ∀ it, entry_ok it = true → entry_ok (f it) = true)
    (hh : h.all (fun p => entry_ok p.2) = true) :
    (upd_assoc k f h).all (fun p => entry_ok p.2) = true := by
  unfold upd_assoc
  rw [List.all_eq_true] at *
  intro p hp
  rcases List.mem_map.mp hp with ⟨q, hq, rfl⟩
  dsimp only
  split
  · exact hf q.2 (hh q hq)
  · exact hh q hq

theorem heap_all_dict_insert (k : Nat) (v : Item) (h : List (Nat × Item))
    (hv : entry_ok v = true)
    (hh : h.all (fun p => entry_ok p.2) = true) :
    (dict_insert k v h).all (fun p => entry_ok p.2) = true := by
  unfold dict_insert
  split
  · exact heap_all_upd_assoc k (fun _ => v) h (fun _ _ => hv) hh
  · rw [List.all_append]
    simp [hh, hv]

theorem entry_ok_set_adj (c : Rat) (it : Item) :
    entry_ok (set_adj c it) = true := by
  unfold set_adj entry_ok
  by_cases h : it.is_treat <;> simp [h]

theorem heap_all_recalc_heap (dd : String) (s : St) (hh : treat_inv s = true) :
    (recalc_heap dd s).all (fun p => entry_ok p.2) = true := by
  unfold treat_inv at hh
  unfold recalc_heap
  rw [List.all_eq_true] at *
  intro p hp
  rcases List.mem_map.mp hp with ⟨q, hq, rfl⟩
  dsimp only
  split
  · exact entry_ok_set_adj _ _
  · exact hh q hq

theorem recalc_pres_treat_inv (dd : String) : PresTI (recalc_adjusted_keep_targets dd) := by
  intro s h
  have hA1 := (recalc_components dd s).1
  unfold treat_inv
  rw [hA1]
  cases hd : s.days.lookup dd with
  | none => exact h
  | some d =>
    cases hm : s.meals_by_day.lookup dd with
    | none => exact h
    | some meals => exact heap_all_recalc_heap dd s h

theorem pres_andThen {r : St × Res} {f : St → St × Res}
    (hr : treat_inv r.1 = true) (hf : PresTI f) :
    treat_inv (andThen r f).1 = true := by
  rcases r with ⟨s, res⟩
  cases res
  case ok => exact hf s hr
  all_goals exact hr

theorem ensure_day_meal_items (dd : String) (s : St) :
    (ensure_day dd s).meal_items = s.meal_items := by
  unfold ensure_day create_empty_meals
  dsimp only
  split_ifs <;> rfl

theorem treat_inv_ensure_day (dd : String) (s : St) :
    treat_inv (ensure_day dd s) = treat_inv s := by
  unfold treat_inv
  rw [ensure_day_meal_items]

theorem treat_inv_recompute (dd : String) (s : St) :
    treat_inv (recompute_day dd s) = treat_inv s := by
  unfold treat_inv
  rw [recompute_day_meal_items]

theorem treat_inv_meal_append (dd : String) (mi ii : Nat) (s : St) :
    treat_inv (meal_append_item dd mi ii s) = treat_inv s := rfl

theorem treat_inv_clear_day (dd : String) (s : St) :
    treat_inv (clear_day_items dd s) = treat_inv s := rfl

theorem treat_inv_clear_meal (dd : String) (mi : Nat) (s : St) :
    treat_inv (clear_meal_items dd mi s) = treat_inv s := rfl

theorem treat_inv_add_event (e : Ev) (s : St) :
    treat_inv (add_event e s) = treat_inv s := rfl

theorem ensure_shopping_pres (fid : String) : PresTI (ensure_shopping_for_item fid) := by
  intro s h
  rw [treat_inv_of_heap_eq
    (congrArg (fun p => p.2.2.1) (ensure_shopping_core_frame fid s))]
  exact h

theorem run_tasks_pres {α : Type} (tf : α → Nat → St → St × Res)
    (hf : ∀ a k, PresTI (tf a k)) :
    ∀ (tasks : List α) (ks : Nat → Nat) (idx : Nat),
      PresTI (fun s => run_tasks tf tasks ks idx s) := by
  intro tasks
  induction tasks with
  | nil => intro ks idx s h; exact h
  | cons a rest ih =>
    intro ks idx s h
    show treat_inv (run_tasks tf (a :: rest) ks idx s).1 = true
    unfold run_tasks
    have hstep := hf a (ks idx) s h
    rcases hr : tf a (ks idx) s with ⟨s2, res⟩
    rw [hr] at hstep
    cases res with
    | ok => exact ih ks (idx + 1) s2 hstep
    | httpExc n msg => exact hstep
    | attrError msg => exact hstep
    | indexError => exact hstep
    | keyError msg => exact hstep

theorem gen_task_pres (catalog : List Row) (dd : String) (t : Macro)
    (task : Nat × String × String) (k : Nat) :
    PresTI (gen_task catalog dd t task k) := by
  intro s h
  unfold gen_task
  cases hp : pick_food catalog task.2.1 task.2.2 k with
  | none => exact h
  | some f =>
    dsimp only
    apply ensure_shopping_pres f.id
    rw [treat_inv_meal_append]
    unfold treat_inv at h ⊢
    dsimp only
    apply heap_all_dict_insert
    · rfl
    · exact h

theorem regen_task_pres (catalog : List Row) (dd : String) (meal_id : Nat)
    (meal_key : String) (mt : Macro) (role : String) (k : Nat) :
    PresTI (regen_task catalog dd meal_id meal_key mt role k) := by
  intro s h
  unfold regen_task
  cases hp : pick_food catalog meal_key role k with
  | none => exact h
  | some f =>
    dsimp only
    apply ensure_shopping_pres f.id
    rw [treat_inv_meal_append]
    unfold treat_inv at h ⊢
    dsimp only
    apply heap_all_dict_insert
    · rfl
    · exact h

theorem generate_day_pres (catalog : List Row) (body : PyBody) (ks : Nat → Nat) :
    PresTI (generate_day catalog body ks) := by
  intro s h
  unfold generate_day
  cases body with
  | asModel dd => exact h
  | asDict kvs =>
    dsimp only
    cases hk : kvs.lookup "day_date" with
    | none => exact h
    | some dd =>
      dsimp only
      split
      · exact h
      · have h1 : treat_inv (ensure_day dd s) = true := by
          rw [treat_inv_ensure_day]
          exact h
        cases hd : (ensure_day dd s).days.lookup dd with
        | none => exact h1
        | some day =>
          cases hm : (ensure_day dd s).meals_by_day.lookup dd with
          | none => exact h1
          | some meals =>
            dsimp only
            apply pres_andThen ?_ (recalc_pres_treat_inv dd)
            apply run_tasks_pres _ (fun a k => gen_task_pres catalog dd _ a k)
            rw [treat_inv_clear_day]
            exact h1

theorem accept_day_pres (dd : String) : PresTI (accept_day dd) := by
  intro s h
  unfold accept_day
  rw [treat_inv_add_event, treat_inv_ensure_day]
  exact h

theorem reject_day_pres (catalog : List Row) (dd : String) (ks : Nat → Nat) :
    PresTI (reject_day catalog dd ks) := by
  intro s h
  unfold reject_day
  apply pres_andThen ?_ (fun s2 h2 => h2)
  apply generate_day_pres
  rw [treat_inv_add_event, treat_inv_ensure_day]
  exact h

theorem recalc_then_event_pres (dd : String) (e : Ev) :
    PresTI (fun s2 => andThen (recalc_adjusted_keep_targets dd s2)
      (fun s3 => (add_event e s3, Res.ok))) := by
  intro s2 h2
  apply pres_andThen (recalc_pres_treat_inv dd s2 h2)
  intro s3 h3
  show treat_inv (add_event e s3) = true
  rw [treat_inv_add_event]
  exact h3

theorem regenerate_meal_pres (catalog : List Row) (mid : Nat) (ks : Nat → Nat) :
    PresTI (regenerate_meal catalog mid ks) := by
  intro s h
  unfold regenerate_meal
  cases hfm : find_meal s mid with
  | none => exact h
  | some p =>
    rcases p with ⟨dd, m⟩
    dsimp only
    have h1 : treat_inv (ensure_day dd s) = true := by
      rw [treat_inv_ensure_day]
      exact h
    cases hd : (ensure_day dd s).days.lookup dd with
    | none => exact h1
    | some d =>
      dsimp only
      apply pres_andThen ?_ (recalc_then_event_pres dd _)
      apply run_tasks_pres _ (fun a k => regen_task_pres catalog dd mid m.key _ a k)
      show treat_inv (clear_meal_items dd mid (ensure_day dd s)) = true
      rw [treat_inv_clear_meal]
      exact h1

theorem swap_core_pres (catalog : List Row) (iid : Nat) (role : String) (k : Nat) :
    PresTI (swap_item_core catalog iid role k) := by
  intro s h
  unfold swap_item_core
  cases hit : s.meal_items.lookup iid with
  | none => exact h
  | some it =>
    dsimp only
    cases hfm : find_meal s it.meal_id with
    | none => exact h
    | some p =>
      rcases p with ⟨dd, m⟩
      dsimp only
      cases hp : pick_food catalog m.key role k with
      | none => exact h
      | some f =>
        dsimp only
        apply ensure_shopping_pres
        unfold treat_inv at h ⊢
        unfold upd_item
        dsimp only
        apply heap_all_upd_assoc _ _ _ ?_ h
        intro j _
        simp [entry_ok]

theorem swap_item_pres (catalog : List Row) (iid : Nat) (role : String) (k : Nat) :
    PresTI (swap_item catalog iid role k) := by
  intro s h
  unfold swap_item
  cases hit : s.meal_items.lookup iid with
  | none => exact h
  | some it =>
    dsimp only
    cases hfm : find_meal s it.meal_id with
    | none => exact h
    | some p =>
      rcases p with ⟨dd, m⟩
      dsimp only
      apply pres_andThen ?_ (recalc_then_event_pres dd _)
      exact swap_core_pres catalog iid role k s h

theorem add_extra_pres (mid : Nat) (fid : String) (grams : Rat) (as_treat : Bool) :
    PresTI (add_extra mid fid grams as_treat) := by
  intro s h
  unfold add_extra
  cases hfm : find_meal s mid with
  | none => exact h
  | some p =>
    rcases p with ⟨dd, m⟩
    dsimp only
    cases hg : get_food s fid with
    | none => exact h
    | some f =>
      dsimp only
      apply pres_andThen ?_ (recalc_then_event_pres dd _)
      apply ensure_shopping_pres
      rw [treat_inv_meal_append]
      unfold treat_inv at h ⊢
      dsimp only
      apply heap_all_dict_insert _ _ _ ?_ h
      simp [entry_ok]

theorem confirm_upd_pres_aux (iid : Nat) (g : Rat) (c : Bool) (s : St)
    (h : treat_inv s = true) :
    treat_inv (upd_item iid
      (fun j => { j with consumed_g := g, is_confirmed := c }) s) = true := by
  unfold treat_inv at h ⊢
  unfold upd_item
  dsimp only
  apply heap_all_upd_assoc _ _ _ ?_ h
  intro j hj
  exact hj

theorem confirm_item_pres (iid : Nat) (g : Rat) (c : Bool) :
    PresTI (confirm_item iid g c) := by
  intro s h
  unfold confirm_item
  cases hit : s.meal_items.lookup iid with
  | none => exact h
  | some it =>
    dsimp only
    have h2 := confirm_upd_pres_aux iid g c s h
    cases hfm : find_meal (upd_item iid
        (fun j => { j with consumed_g := g, is_confirmed := c }) s) it.meal_id with
    | none => exact h2
    | some p =>
      rcases p with ⟨dd, m⟩
      dsimp only
      rw [treat_inv_add_event, treat_inv_recompute]
      exact h2

theorem set_training_pres (dd : String) (b : Bool) : PresTI (set_training dd b) := by
  intro s h
  unfold set_training
  dsimp only
  apply pres_andThen ?_ (fun s2 h2 => h2)
  apply recalc_pres_treat_inv
  have h1 : treat_inv (ensure_day dd s) = true := by
    rw [treat_inv_ensure_day]
    exact h
  exact h1

theorem get_day_pres (dd : String) : PresTI (get_day dd) := by
  intro s h
  show treat_inv (ensure_day dd s) = true
  rw [treat_inv_ensure_day]
  exact h

theorem get_day_meals_pres (dd : String) : PresTI (get_day_meals dd) := by
  intro s h
  show treat_inv (ensure_day dd s) = true
  rw [treat_inv_ensure_day]
  exact h

theorem step_pres (catalog : List Row) (op : Op) : PresTI (step catalog op) := by
  cases op with
  | opGenerateDay body ks => exact generate_day_pres catalog body ks
  | opAcceptDay dd => exact accept_day_pres dd
  | opRejectDay dd ks => exact reject_day_pres catalog dd ks
  | opRegenerateMeal mid ks => exact regenerate_meal_pres catalog mid ks
  | opSwapItem iid role k => exact swap_item_pres catalog iid role k
  | opAddExtra mid fid grams as_treat => exact add_extra_pres mid fid grams as_treat
  | opConfirmItem iid g c => exact confirm_item_pres iid g c
  | opSetTraining dd b => exact set_training_pres dd b
  | opGetDay dd => exact get_day_pres dd
  | opGetMeals dd => exact get_day_meals_pres dd

/-- C4.  Treat invariance: if every treat item satisfies
`adjusted_g = planned_g`, then after any sequence of Orchestrator operations
(GenerateDay, AcceptDay, RejectDay, RegenerateMeal, SwapItem, AddExtra,
ConfirmItem, SetTraining, getDay, getMeals) — each of which runs the
Rebalancer zero or more times — every treat item still satisfies
`adjusted_g = planned_g`.  Treats created by AddExtra start with
`adjusted_g = planned_g = grams`, the Rebalancer always writes
`adjusted_g := planned_g` on treats, and no other code path touches a
treat's grams. -/
theorem treat_invariance_all_ops (catalog : List Row) (ops : List Op) (s : St)
    (h : treat_inv s = true) : treat_inv (run_ops catalog ops s) = true := by
  induction ops generalizing s with
  | nil => exact h
  | cons op rest ih =>
    exact ih (step catalog op s).1 (step_pres catalog op s h)

/-- A treat item (adjusted = planned) for the C4 witness. -/
def itC4 : Item :=
  { id := 1, meal_id := 10, food := food_ref (row_to_food rowG),
    role := "grasa", planned_g := 40, adjusted_g := 40, consumed_g := 40,
    is_confirmed := true, is_extra := true, is_treat := true,
    pantry_status := "available" }

/-- A day state holding the treat item, for the C4 witness. -/
def sC4 : St :=
  { st0 with
    days := [("2026-03-01",
      { day_date := "2026-03-01", is_training := true, planned := macro_dict,
        adjusted := macro_dict, consumed := macro_dict })],
    meals_by_day := [("2026-03-01",
      [{ id := 10, day_date := "2026-03-01", key := "merienda",
         name := "Merienda", planned_macros := macro_dict,
         adjusted_macros := macro_dict, items := [1] }])],
    meal_items := [(1, itC4)] }

/-- Witness for C4: flipping the training profile (which rebalances) and
confirming the treat keep `adjusted_g = planned_g` on it. -/
theorem treat_invariance_all_ops_witness :
    treat_inv (run_ops catalog0
      [Op.opSetTraining "2026-03-01" false, Op.opConfirmItem 1 35 true] sC4) =
      true :=
  treat_invariance_all_ops catalog0
    [Op.opSetTraining "2026-03-01" false, Op.opConfirmItem 1 35 true] sC4
    (by decide)

/-! ### C9: ids of items removed by a regeneration stay valid -/

/-- `f` never removes an id from the shared `meal_items` map. -/
def HeapKeeps (f : St → St × Res) : Prop :=
  ∀ s i, (s.meal_items.lookup i).isSome = true →
    ((f s).1.meal_items.lookup i).isSome = true

theorem isSome_upd_assoc (k : Nat) (f : Item → Item) (h : List (Nat × Item))
    (i : Nat) : ((upd_assoc k f h).lookup i).isSome = (h.lookup i).isSome := by
  rw [lookup_upd_assoc]
  cases h.lookup i <;> rfl

theorem isSome_dict_insert (k : Nat) (v : Item) (h : List (Nat × Item)) (i : Nat)
    (hs : (h.lookup i).isSome = true) :
    ((dict_insert k v h).lookup i).isSome = true := by
  by_cases hik : i = k
  · subst hik
    rw [lookup_dict_insert_self]
    rfl
  · rw [lookup_dict_insert_ne _ _ _ _ hik]
    exact hs

theorem hk_andThen {r : St × Res} {f : St → St × Res} (i : Nat)
    (hr : (r.1.meal_items.lookup i).isSome = true) (hf : HeapKeeps f) :
    ((andThen r f).1.meal_items.lookup i).isSome = true := by
  rcases r with ⟨s, res⟩
  cases res
  case ok => exact hf s i hr
  all_goals exact hr

theorem hk_recalc (dd : String) : HeapKeeps (recalc_adjusted_keep_targets dd) := by
  intro s i hs
  have hA1 := (recalc_components dd s).1
  rw [hA1]
  cases hd : s.days.lookup dd with
  | none => exact hs
  | some d =>
    cases hm : s.meals_by_day.lookup dd with
    | none => exact hs
    | some meals =>
      show ((recalc_heap dd s).lookup i).isSome = true
      rw [recalc_heap_lookup]
      cases hv : s.meal_items.lookup i with
      | none => rw [hv] at hs; exact absurd hs (by simp)
      | some v => rfl

theorem hk_gen_task (catalog : List Row) (dd : String) (t : Macro)
    (task : Nat × String × String) (k : Nat) :
    HeapKeeps (gen_task catalog dd t task k) := by
  intro s i hs
  unfold gen_task
  cases hp : pick_food catalog task.2.1 task.2.2 k with
  | none => exact hs
  | some f =>
    dsimp only
    rw [heap_of_frame (ensure_shopping_core_frame f.id _)]
    show ((dict_insert s.next_item_id _ s.meal_items).lookup i).isSome = true
    exact isSome_dict_insert _ _ _ _ hs

theorem hk_regen_task (catalog : List Row) (dd : String) (meal_id : Nat)
    (meal_key : String) (mt : Macro) (role : String) (k : Nat) :
    HeapKeeps (regen_task catalog dd meal_id meal_key mt role k) := by
  intro s i hs
  unfold regen_task
  cases hp : pick_food catalog meal_key role k with
  | none => exact hs
  | some f =>
    dsimp only
    rw [heap_of_frame (ensure_shopping_core_frame f.id _)]
    show ((dict_insert s.next_item_id _ s.meal_items).lookup i).isSome = true
    exact isSome_dict_insert _ _ _ _ hs

theorem hk_run_tasks {α : Type} (tf : α → Nat → St → St × Res)
    (hf : ∀ a k, HeapKeeps (tf a k)) :
    ∀ (tasks : List α) (ks : Nat → Nat) (idx : Nat),
      HeapKeeps (fun s => run_tasks tf tasks ks idx s) := by
  intro tasks
  induction tasks with
  | nil => intro ks idx s i hs; exact hs
  | cons a rest ih =>
    intro ks idx s i hs
    show ((run_tasks tf (a :: rest) ks idx s).1.meal_items.lookup i).isSome = true
    unfold run_tasks
    have hstep := hf a (ks idx) s i hs
    rcases hr : tf a (ks idx) s with ⟨s2, res⟩
    rw [hr] at hstep
    cases res with
    | ok => exact ih ks (idx + 1) s2 i hstep
    | httpExc n msg => exact hstep
    | attrError msg => exact hstep
    | indexError => exact hstep
    | keyError msg => exact hstep

theorem hk_generate_day (catalog : List Row) (body : PyBody) (ks : Nat → Nat) :
    HeapKeeps (generate_day catalog body ks) := by
  intro s i hs
  unfold generate_day
  cases body with
  | asModel dd => exact hs
  | asDict kvs =>
    dsimp only
    cases hk : kvs.lookup "day_date" with
    | none => exact hs
    | some dd =>
      dsimp only
      split
      · exact hs
      · have h1 : ((ensure_day dd s).meal_items.lookup i).isSome = true := by
          rw [ensure_day_meal_items]
          exact hs
        cases hd : (ensure_day dd s).days.lookup dd with
        | none => exact h1
        | some day =>
          cases hm : (ensure_day dd s).meals_by_day.lookup dd with
          | none => exact h1
          | some meals =>
            dsimp only
            apply hk_andThen i ?_ (hk_recalc dd)
            apply hk_run_tasks _ (fun a k => hk_gen_task catalog dd _ a k)
            show ((clear_day_items dd (ensure_day dd s)).meal_items.lookup i).isSome = true
            exact h1

theorem hk_regenerate_meal (catalog : List Row) (mid : Nat) (ks : Nat → Nat) :
    HeapKeeps (regenerate_meal catalog mid ks) := by
  intro s i hs
  unfold regenerate_meal
  cases hfm : find_meal s mid with
  | none => exact hs
  | some p =>
    rcases p with ⟨dd, m⟩
    dsimp only
    have h1 : ((ensure_day dd s).meal_items.lookup i).isSome = true := by
      rw [ensure_day_meal_items]
      exact hs
    cases hd : (ensure_day dd s).days.lookup dd with
    | none => exact h1
    | some d =>
      dsimp only
      apply hk_andThen i ?_ ?_
      · apply hk_run_tasks _ (fun a k => hk_regen_task catalog dd mid m.key _ a k)
        show ((clear_meal_items dd mid (ensure_day dd s)).meal_items.lookup i).isSome = true
        exact h1
      · intro s2 i2 hs2
        apply hk_andThen i2 (hk_recalc dd s2 i2 hs2)
        intro s3 i3 hs3
        exact hs3

theorem find_meal_upd_item (k : Nat) (f : Item → Item) (s : St) (x : Nat) :
    find_meal (upd_item k f s) x = find_meal s x := rfl

theorem upd_item_days (k : Nat) (f : Item → Item) (s : St) :
    (upd_item k f s).days = s.days := rfl

theorem upd_item_meals (k : Nat) (f : Item → Item) (s : St) :
    (upd_item k f s).meals_by_day = s.meals_by_day := rfl

theorem upd_item_heap (k : Nat) (f : Item → Item) (s : St) :
    (upd_item k f s).meal_items = upd_assoc k f s.meal_items := rfl

theorem add_event_days (e : Ev) (s : St) : (add_event e s).days = s.days := rfl

theorem resolve_items_upd_not_mem (iid : Nat) (f : Item → Item)
    (h : List (Nat × Item)) :
    ∀ ids : List Nat, ¬ iid ∈ ids →
      resolve_items (upd_assoc iid f h) ids = resolve_items h ids := by
  intro ids
  induction ids with
  | nil => intro _; rfl
  | cons j rest ih =>
    intro hni
    have hji : j ≠ iid := fun hj => hni (by simp [hj])
    have ht := ih (fun hmem => hni (by simp [hmem]))
    unfold resolve_items at ht ⊢
    simp only [List.filterMap_cons]
    rw [lookup_upd_assoc_ne _ _ _ _ hji, ht]

theorem foldl_congr_mem {α β : Type} (l : List α) (f g : β → α → β)
    (h : ∀ b a, a ∈ l → f b a = g b a) : ∀ b, l.foldl f b = l.foldl g b := by
  induction l with
  | nil => intro b; rfl
  | cons a t ih =>
    intro b
    simp only [List.foldl_cons]
    rw [h b a (by simp)]
    exact ih (fun b2 a2 ha2 => h b2 a2 (by simp [ha2])) _

theorem flatMap_congr_mem {α β : Type} (l : List α) (f g : α → List β)
    (h : ∀ a ∈ l, f a = g a) : l.flatMap f = l.flatMap g := by
  induction l with
  | nil => rfl
  | cons a t ih =>
    simp only [List.flatMap_cons]
    rw [h a (by simp), ih (fun a2 ha2 => h a2 (by simp [ha2]))]

/-- `confirm_item` on an id still present in `meal_items` whose meal still
exists returns ok (no `NotFoundError`). -/
theorem confirm_item_ok (s : St) (iid : Nat) (g : Rat) (c : Bool) (it : Item)
    (dd : String) (m : Meal)
    (hit : s.meal_items.lookup iid = some it)
    (hm : find_meal s it.meal_id = some (dd, m)) :
    (confirm_item iid g c s).2 = Res.ok := by
  unfold confirm_item
  rw [hit]
  dsimp only
  rw [find_meal_upd_item, hm]

/-- Confirming an item no meal list holds leaves the recomputed day exactly
as a plain recomputation of the unmodified state would: the orphan
contributes nothing to the day's aggregates, `consumed` included. -/
theorem confirm_orphan_day_unchanged (s : St) (iid : Nat) (g : Rat) (c : Bool)
    (it : Item) (dd : String) (m : Meal) (ms : List Meal)
    (hit : s.meal_items.lookup iid = some it)
    (hm : find_meal s it.meal_id = some (dd, m))
    (hms : s.meals_by_day.lookup dd = some ms)
    (horph : ∀ m2 ∈ ms, ¬ iid ∈ m2.items) :
    (confirm_item iid g c s).1.days.lookup dd =
      (recompute_day dd s).days.lookup dd := by
  unfold confirm_item
  rw [hit]
  dsimp only
  rw [find_meal_upd_item, hm]
  dsimp only
  rw [add_event_days]
  unfold recompute_day
  rw [upd_item_days, upd_item_meals, upd_item_heap, hms]
  cases hd : s.days.lookup dd with
  | none =>
    show (upd_item iid (fun j => { j with consumed_g := g, is_confirmed := c })
      s).days.lookup dd = s.days.lookup dd
    rw [upd_item_days]
  | some d =>
    dsimp only
    rw [lookup_dict_insert_self, lookup_dict_insert_self]
    have hres : ∀ m2 ∈ ms,
        resolve_items (upd_assoc iid
          (fun j => { j with consumed_g := g, is_confirmed := c })
          s.meal_items) m2.items = resolve_items s.meal_items m2.items :=
      fun m2 hm2 => resolve_items_upd_not_mem iid _ _ m2.items (horph m2 hm2)
    have hP := foldl_congr_mem ms
      (fun t m2 => add_macros t (sum_items_macros (resolve_items (upd_assoc iid
        (fun j => { j with consumed_g := g, is_confirmed := c })
        s.meal_items) m2.items) (fun it2 => it2.planned_g)))
      (fun t m2 => add_macros t (sum_items_macros (resolve_items s.meal_items
        m2.items) (fun it2 => it2.planned_g)))
      (fun t m2 hm2 => by dsimp only; rw [hres m2 hm2]) macro_dict
    have hA := foldl_congr_mem ms
      (fun t m2 => add_macros t (sum_items_macros (resolve_items (upd_assoc iid
        (fun j => { j with consumed_g := g, is_confirmed := c })
        s.meal_items) m2.items) (fun it2 => it2.adjusted_g)))
      (fun t m2 => add_macros t (sum_items_macros (resolve_items s.meal_items
        m2.items) (fun it2 => it2.adjusted_g)))
      (fun t m2 hm2 => by dsimp only; rw [hres m2 hm2]) macro_dict
    have hC := foldl_congr_mem ms
      (fun t m2 => add_macros t (meal_consumed (upd_assoc iid
        (fun j => { j with consumed_g := g, is_confirmed := c })
        s.meal_items) m2))
      (fun t m2 => add_macros t (meal_consumed s.meal_items m2))
      (fun t m2 hm2 => by dsimp only; unfold meal_consumed; rw [hres m2 hm2]) macro_dict
    rw [hP, hA, hC]

theorem ensure_shopping_avail (fid : String) (s : St)
    (h : pantry_status_for_food s fid = "available") :
    ensure_shopping_for_item fid s = (s, Res.ok) := by
  unfold ensure_shopping_for_item
  rw [h]
  rfl

theorem ensure_shopping_all_avail :
    ∀ (fids : List String) (s : St),
      (∀ fid ∈ fids, pantry_status_for_food s fid = "available") →
      ensure_shopping_all fids s = (s, Res.ok) := by
  intro fids
  induction fids with
  | nil => intro s _; rfl
  | cons fid rest ih =>
    intro s h
    unfold ensure_shopping_all
    simp only [List.foldl_cons]
    have h1 : andThen (s, Res.ok) (ensure_shopping_for_item fid) = (s, Res.ok) := by
      show ensure_shopping_for_item fid s = (s, Res.ok)
      exact ensure_shopping_avail fid s (h fid (by simp))
    rw [h1]
    have h2 := ih s (fun f2 hf2 => h f2 (by simp [hf2]))
    unfold ensure_shopping_all at h2
    exact h2

theorem recalc_ok_of_avail (dd : String) (s : St) (d : Day) (ms : List Meal)
    (hd : s.days.lookup dd = some d)
    (hms : s.meals_by_day.lookup dd = some ms)
    (hav : ∀ fid ∈ (ms.flatMap (fun m2 =>
        resolve_items (recalc_heap dd s) m2.items)).map (fun it2 => it2.food.id),
      pantry_status_for_food s fid = "available") :
    (recalc_adjusted_keep_targets dd s).2 = Res.ok := by
  unfold recalc_adjusted_keep_targets
  rw [hd, hms]
  dsimp only
  have h1 := ensure_shopping_all_avail
    ((ms.flatMap (fun m2 => resolve_items (recalc_heap dd s) m2.items)).map
      (fun it2 => it2.food.id))
    ({ s with meal_items := recalc_heap dd s } : St)
    (fun fid hf => hav fid hf)
  rw [h1]
  rfl

theorem map_food_id_eq_of_sig {l1 l2 : List Item}
    (h : l1.map item_sig = l2.map item_sig) :
    l1.map (fun it2 => it2.food.id) = l2.map (fun it2 => it2.food.id) := by
  have h2 := congrArg (List.map (fun t : Rat × Bool × FoodDict => t.2.2.id)) h
  rw [List.map_map, List.map_map] at h2
  exact h2

/-- The item mutation `swap_item` performs, as a named function (identical to
the in-line update of `swap_item_core`). -/
def swap_upd (f : FoodDict) (old_planned : Rat) (ps : String) (j : Item) : Item :=
  { j with food := food_ref f, role := compute_role f, planned_g := old_planned,
           adjusted_g := old_planned, pantry_status := ps }

/-- `swap_item` on an id whose item dict survives in `meal_items` but is in
no meal list (an orphan left behind by a regeneration) completes with ok,
provided the catalog yields a candidate and the pantry has the relevant
foods available (so the shopping deriver has nothing to create). -/
theorem swap_item_ok (catalog : List Row) (s : St) (iid : Nat) (role : String)
    (k : Nat) (it : Item) (dd : String) (m : Meal) (f : FoodDict) (d : Day)
    (ms : List Meal)
    (hit : s.meal_items.lookup iid = some it)
    (hm : find_meal s it.meal_id = some (dd, m))
    (hp : pick_food catalog m.key role k = some f)
    (hd : s.days.lookup dd = some d)
    (hms : s.meals_by_day.lookup dd = some ms)
    (horph : ∀ m2 ∈ ms, ¬ iid ∈ m2.items)
    (havf : pantry_status_for_food s f.id = "available")
    (hav : ∀ it2 ∈ day_items s dd,
      pantry_status_for_food s it2.food.id = "available") :
    (swap_item catalog iid role k s).2 = Res.ok := by
  have hcore : swap_item_core catalog iid role k s =
      (upd_item iid (swap_upd f it.planned_g (pantry_status_for_food s f.id)) s,
       Res.ok) := by
    unfold swap_item_core
    rw [hit]
    dsimp only
    rw [hm]
    dsimp only
    rw [hp]
    dsimp only
    exact ensure_shopping_avail f.id _ havf
  have hsig_u : ∀ i,
      ((recalc_heap dd (upd_item iid
        (swap_upd f it.planned_g (pantry_status_for_food s f.id)) s)).lookup
          i).map item_sig =
      ((upd_item iid (swap_upd f it.planned_g (pantry_status_for_food s f.id))
        s).meal_items.lookup i).map item_sig := by
    intro i
    rw [recalc_heap_lookup]
    cases hv : (upd_item iid
        (swap_upd f it.planned_g (pantry_status_for_food s f.id))
        s).meal_items.lookup i with
    | none => rfl
    | some v =>
      simp only [Option.map_some']
      split
      · rw [item_sig_set_adj]
      · rfl
  have hfood_ids : (ms.flatMap (fun m2 => resolve_items
        (recalc_heap dd (upd_item iid
          (swap_upd f it.planned_g (pantry_status_for_food s f.id)) s))
        m2.items)).map (fun it2 => it2.food.id) =
      (day_items s dd).map (fun it2 => it2.food.id) := by
    have h1 := flatMap_resolve_map_sig _ _ hsig_u (ms.map (fun m2 => m2.items))
    rw [← flatMap_resolve_by_items, ← flatMap_resolve_by_items] at h1
    have h2 : ms.flatMap (fun m2 => resolve_items
        (upd_item iid (swap_upd f it.planned_g (pantry_status_for_food s f.id))
          s).meal_items m2.items) =
        ms.flatMap (fun m2 => resolve_items s.meal_items m2.items) :=
      flatMap_congr_mem _ _ _ (fun m2 hm2 =>
        resolve_items_upd_not_mem iid _ _ m2.items (horph m2 hm2))
    rw [h2] at h1
    rw [map_food_id_eq_of_sig h1]
    unfold day_items
    rw [hms]
  have hrec : (recalc_adjusted_keep_targets dd (upd_item iid
      (swap_upd f it.planned_g (pantry_status_for_food s f.id)) s)).2 =
      Res.ok := by
    have hd2 : (upd_item iid
        (swap_upd f it.planned_g (pantry_status_for_food s f.id))
        s).days.lookup dd = some d := hd
    have hms2 : (upd_item iid
        (swap_upd f it.planned_g (pantry_status_for_food s f.id))
        s).meals_by_day.lookup dd = some ms := hms
    apply recalc_ok_of_avail dd _ d ms hd2 hms2
    intro fid hf
    rw [hfood_ids] at hf
    rcases List.mem_map.mp hf with ⟨it2, hit2, rfl⟩
    exact hav it2 hit2
  unfold swap_item
  rw [hit]
  dsimp only
  rw [hm]
  dsimp only
  rw [hcore]
  show (andThen (recalc_adjusted_keep_targets dd _) _).2 = Res.ok
  rcases hr : recalc_adjusted_keep_targets dd (upd_item iid
      (swap_upd f it.planned_g (pantry_status_for_food s f.id)) s) with
    ⟨s5, res⟩
  rw [hr] at hrec
  simp only at hrec
  subst hrec
  rfl

/-- C9.  Item ids of items removed by GenerateDay or RegenerateMeal remain
valid at the public interface: the two regenerations clear the meal item
lists but never delete an entry from the shared `meal_items` map, so
ConfirmItem on such an id succeeds without a `NotFoundError`; a removed item
confirmed this way contributes nothing to the day's aggregates (the day
after the confirmation equals a plain recomputation of the untouched state,
because aggregation reads only the ids present in the meals' current item
lists); and SwapItem on such an id also completes without a `NotFoundError`
(given a candidate food and an available pantry, so no later failure
intervenes). -/
theorem removed_item_ids_remain_valid :
    (∀ (catalog : List Row) (body : PyBody) (ks : Nat → Nat) (s : St) (i : Nat),
      (s.meal_items.lookup i).isSome = true →
      ((generate_day catalog body ks s).1.meal_items.lookup i).isSome = true) ∧
    (∀ (catalog : List Row) (mid : Nat) (ks : Nat → Nat) (s : St) (i : Nat),
      (s.meal_items.lookup i).isSome = true →
      ((regenerate_meal catalog mid ks s).1.meal_items.lookup i).isSome = true) ∧
    (∀ (s : St) (iid : Nat) (g : Rat) (c : Bool) (it : Item) (dd : String)
        (m : Meal),
      s.meal_items.lookup iid = some it →
      find_meal s it.meal_id = some (dd, m) →
      (confirm_item iid g c s).2 = Res.ok) ∧
    (∀ (s : St) (iid : Nat) (g : Rat) (c : Bool) (it : Item) (dd : String)
        (m : Meal) (ms : List Meal),
      s.meal_items.lookup iid = some it →
      find_meal s it.meal_id = some (dd, m) →
      s.meals_by_day.lookup dd = some ms →
      (∀ m2 ∈ ms, ¬ iid ∈ m2.items) →
      (confirm_item iid g c s).1.days.lookup dd =
        (recompute_day dd s).days.lookup dd) ∧
    (∀ (catalog : List Row) (s : St) (iid : Nat) (role : String) (k : Nat)
        (it : Item) (dd : String) (m : Meal) (f : FoodDict) (d : Day)
        (ms : List Meal),
      s.meal_items.lookup iid = some it →
      find_meal s it.meal_id = some (dd, m) →
      pick_food catalog m.key role k = some f →
      s.days.lookup dd = some d →
      s.meals_by_day.lookup dd = some ms →
      (∀ m2 ∈ ms, ¬ iid ∈ m2.items) →
      pantry_status_for_food s f.id = "available" →
      (∀ it2 ∈ day_items s dd,
        pantry_status_for_food s it2.food.id = "available") →
      (swap_item catalog iid role k s).2 = Res.ok) :=
  ⟨fun catalog body ks => hk_generate_day catalog body ks,
   fun catalog mid ks => hk_regenerate_meal catalog mid ks,
   fun s iid g c it dd m h1 h2 => confirm_item_ok s iid g c it dd m h1 h2,
   fun s iid g c it dd m ms h1 h2 h3 h4 =>
     confirm_orphan_day_unchanged s iid g c it dd m ms h1 h2 h3 h4,
   fun catalog s iid role k it dd m f d ms h1 h2 h3 h4 h5 h6 h7 h8 =>
     swap_item_ok catalog s iid role k it dd m f d ms h1 h2 h3 h4 h5 h6 h7 h8⟩

/-- An orphaned item for the C9 witness: present in `meal_items`, absent
from every meal's item list. -/
def itC9 : Item :=
  { id := 5, meal_id := 20, food := food_ref (row_to_food rowP),
    role := "proteina", planned_g := 150, adjusted_g := 150, consumed_g := 0,
    is_confirmed := false, is_extra := false, is_treat := false,
    pantry_status := "available" }

/-- The C9 witness state: a day whose meal list was cleared (as GenerateDay
and RegenerateMeal do) while `meal_items` still holds the removed item. -/
def sC9 : St :=
  { st0 with
    days := [("2026-04-01",
      { day_date := "2026-04-01", is_training := true, planned := macro_dict,
        adjusted := macro_dict, consumed := macro_dict })],
    meals_by_day := [("2026-04-01",
      [{ id := 20, day_date := "2026-04-01", key := "cena", name := "Cena",
         planned_macros := macro_dict, adjusted_macros := macro_dict,
         items := [] }])],
    meal_items := [(5, itC9)] }

/-- Witness for C9 at the orphaned-item state: the id survives a
regeneration of the day, ConfirmItem and SwapItem on it return ok, and the
confirmed orphan leaves the recomputed day untouched. -/
theorem removed_item_ids_remain_valid_witness :
    (((generate_day catalog0 (PyBody.asDict [("day_date", "2026-04-01")])
        (fun _ => 0) sC9).1.meal_items.lookup 5).isSome = true) ∧
    (confirm_item 5 80 true sC9).2 = Res.ok ∧
    (confirm_item 5 80 true sC9).1.days.lookup "2026-04-01" =
      (recompute_day "2026-04-01" sC9).days.lookup "2026-04-01" ∧
    (swap_item catalog0 5 "proteina" 0 sC9).2 = Res.ok :=
  ⟨removed_item_ids_remain_valid.1 catalog0
      (PyBody.asDict [("day_date", "2026-04-01")]) (fun _ => 0) sC9 5
      (by decide),
   removed_item_ids_remain_valid.2.2.1 sC9 5 80 true itC9 "2026-04-01"
      { id := 20, day_date := "2026-04-01", key := "cena", name := "Cena",
        planned_macros := macro_dict, adjusted_macros := macro_dict,
        items := [] }
      (by decide) (by decide),
   removed_item_ids_remain_valid.2.2.2.1 sC9 5 80 true itC9 "2026-04-01"
      { id := 20, day_date := "2026-04-01", key := "cena", name := "Cena",
        planned_macros := macro_dict, adjusted_macros := macro_dict,
        items := [] }
      [{ id := 20, day_date := "2026-04-01", key := "cena", name := "Cena",
         planned_macros := macro_dict, adjusted_macros := macro_dict,
         items := [] }]
      (by decide) (by decide) (by decide) (by decide),
   removed_item_ids_remain_valid.2.2.2.2 catalog0 sC9 5 "proteina" 0 itC9
      "2026-04-01"
      { id := 20, day_date := "2026-04-01", key := "cena", name := "Cena",
        planned_macros := macro_dict, adjusted_macros := macro_dict,
        items := [] }
      (row_to_food rowP)
      { day_date := "2026-04-01", is_training := true, planned := macro_dict,
        adjusted := macro_dict, consumed := macro_dict }
      [{ id := 20, day_date := "2026-04-01", key := "cena", name := "Cena",
         planned_macros := macro_dict, adjusted_macros := macro_dict,
         items := [] }]
      (by decide) (by decide) (by decide) (by decide) (by decide) (by decide)
      (by decide) (by decide)⟩

end Befit
